import Mathlib

/-! SurveyFlow: the survey-creation form.

A shallow embedding of `src/src/components/SurveyForm.js` (the React component `SurveyForm`)
and of the part of `src/src/services/api.js` it calls.

* React state (`useState` cells) is the record `FormState`; every event handler is a function
  from the state of the render it closes over to the state React commits after the handler.
* A handler that raises a JavaScript exception is an `Outcome` with `raised = some _`; its
  `state` holds the updates queued before the exception, which React still commits.
* JavaScript strings are `String`; the string primitives the component uses (`trim`,
  `split`, `parseInt`, `endsWith`, the e-mail regular expression) are defined on character lists.
* The asynchronous `FileReader` is a list of pending readers, each holding what its `onload`
  closure captured when the file was selected.
-/

namespace SurveyFlow

/-! ## JavaScript primitives -/

/-- White space in the ECMAScript sense (WhiteSpace and LineTerminator code points): what
`String.prototype.trim` strips, what `parseInt` skips, and the complement of the class `\S`. -/
def isJsWhiteSpace (c : Char) : Bool :=
  c.toNat == 0x09 || c.toNat == 0x0A || c.toNat == 0x0B || c.toNat == 0x0C || c.toNat == 0x0D ||
  c.toNat == 0x20 || c.toNat == 0xA0 || c.toNat == 0x1680 ||
  (decide (0x2000 ≤ c.toNat) && decide (c.toNat ≤ 0x200A)) ||
  c.toNat == 0x2028 || c.toNat == 0x2029 || c.toNat == 0x202F || c.toNat == 0x205F ||
  c.toNat == 0x3000 || c.toNat == 0xFEFF

/-- The characters of `s.trim()`. -/
def trimChars (cs : List Char) : List Char :=
  ((cs.dropWhile isJsWhiteSpace).reverse.dropWhile isJsWhiteSpace).reverse

/-- JavaScript `s.trim()`. -/
def trim (s : String) : String := ⟨trimChars s.data⟩

/-- JavaScript truthiness of a string value: every string but the empty one. -/
def truthy (s : String) : Bool := !s.data.isEmpty

/-- The pieces of `content.split('\n')`, as character lists. The empty string gives one empty
piece, and a trailing line feed gives a trailing empty piece. -/
def splitLineChars : List Char → List (List Char)
  | [] => [[]]
  | c :: cs =>
    match splitLineChars cs with
    | [] => [[]]
    | l :: ls => if c = '\n' then [] :: l :: ls else (c :: l) :: ls

/-- JavaScript `content.split('\n')`. -/
def splitLines (content : String) : List String :=
  (splitLineChars content.data).map String.mk

/-- JavaScript `name.endsWith(suffix)`. -/
def endsWith (name suffix : String) : Bool :=
  suffix.data.isSuffixOf name.data

/-- The value of a decimal digit string, most significant digit first. -/
def digitsValue (ds : List Char) : Nat :=
  ds.foldl (fun acc c => 10 * acc + (c.toNat - 48)) 0

/-- Sign and remainder of the input of `parseInt` once leading white space is gone. -/
def parseSign : List Char → Bool × List Char
  | '-' :: rest => (true, rest)
  | '+' :: rest => (false, rest)
  | cs => (false, cs)

/-- JavaScript `parseInt(s, 10)`: leading white space is skipped, an optional sign is read, then
the longest run of decimal digits; whatever follows is ignored. `none` is `NaN` (no digit).

The JavaScript result is the double nearest to the integer returned here. The component only
compares the result with `1` and uses it as an array length; rounding to a double is monotone and
exact below `2 ^ 53`, so neither the comparison with `1`, nor the comparison with the array-length
limit `2 ^ 32 - 1`, nor any length below that limit, is changed by taking the exact integer. -/
def parseInt (s : String) : Option Int :=
  let signed := parseSign (s.data.dropWhile isJsWhiteSpace)
  let digits := signed.2.takeWhile Char.isDigit
  if digits.isEmpty then none
  else some (if signed.1 then -(digitsValue digits : Int) else (digitsValue digits : Int))

/-- The tail `\S+\.\S+$` of the e-mail pattern, on a string already known to be free of white
space: some dot has at least one character before it and at least one after it. -/
def hasInnerDot : List Char → Bool
  | [] => false
  | _ :: cs => dotThenMore cs
where
  /-- Some dot of the list is followed by at least one more character. -/
  dotThenMore : List Char → Bool
    | [] => false
    | c :: rest => (c == '.' && !rest.isEmpty) || dotThenMore rest

/-- The test `/^\S+@\S+\.\S+$/.test(s)`: no white space anywhere, and the string splits as
`a ++ "@" ++ b ++ "." ++ c` with `a`, `b`, `c` non-empty. -/
def emailRegexTest (s : String) : Bool :=
  s.data.all (fun c => !isJsWhiteSpace c) && localThenAt s.data
where
  /-- At least one character, then an `@` followed by a match of the tail. -/
  localThenAt : List Char → Bool
    | [] => false
    | _ :: cs => atThenTail cs
  /-- Some `@` of the list is followed by a match of the tail. -/
  atThenTail : List Char → Bool
    | [] => false
    | c :: rest => (c == '@' && hasInnerDot rest) || atThenTail rest

/-- The largest length a JavaScript array can have; `Array.from` (through `new Array(len)`)
raises a `RangeError` for a longer one. -/
def maxArrayLength : Nat := 2 ^ 32 - 1

/-- The exceptions the handlers can raise. -/
inductive JsError where
  | typeError
  | rangeError
deriving DecidableEq, Repr

deriving instance DecidableEq for Except

/-! ## Data model -/

/-- One entry of the `questions` state: `options` is `null` or an array of strings. -/
structure Question where
  text : String
  options : Option (List String)
deriving DecidableEq, Repr

/-- The `formData` state object. -/
structure FormData where
  title : String
  recipient_email : String
  question_type : String
  num_questions : String
deriving DecidableEq, Repr

/-- The selected file: its name and the text `FileReader.readAsText` delivers for it. -/
structure File where
  name : String
  content : String
deriving DecidableEq, Repr

/-- The `errors` state object: keys in insertion order, each with its message. -/
abbrev Errors := List (String × String)

/-- Property assignment `obj[k] = v` (also the spread `{ ...prev, [k]: v }`): an existing key
keeps its place and takes the new value, a new key goes last. -/
def setKey (k v : String) : Errors → Errors
  | [] => [(k, v)]
  | (k0, v0) :: rest => if k0 = k then (k, v) :: rest else (k0, v0) :: setKey k v rest

/-- Property read `obj[k]`; `none` is `undefined`. -/
def getKey (k : String) : Errors → Option String
  | [] => none
  | (k0, v0) :: rest => if k0 = k then some v0 else getKey k rest

/-- The state cells of the component (lines 7-18). -/
structure FormState where
  formData : FormData
  questions : List Question
  useFileUpload : Bool
  questionsFile : Option File
  errors : Errors
  loading : Bool
  previewMode : Bool
deriving DecidableEq, Repr

/-- The state on mount. -/
def initialState : FormState :=
  { formData := { title := "", recipient_email := "", question_type := "fillup", num_questions := "" }
    questions := []
    useFileUpload := false
    questionsFile := none
    errors := []
    loading := false
    previewMode := false }

/-- What a handler leaves behind: the state React commits, and the exception if one was raised. -/
structure Outcome where
  state : FormState
  raised : Option JsError
deriving DecidableEq, Repr

/-- The handler ran to its end. -/
def Outcome.ok (s : FormState) : Outcome := { state := s, raised := none }

/-- The handler raised `e` after queueing the updates that lead to `s`. -/
def Outcome.throw (e : JsError) (s : FormState) : Outcome := { state := s, raised := some e }

/-! ## Event handlers -/

/-- The elements whose `onChange` is `handleInputChange`: the two text inputs and, through the
`question_type` select, the type field. -/
inductive InputName where
  | title
  | recipient_email
  | question_type
deriving DecidableEq, Repr

/-- The `name` attribute of the element, which is both the `formData` field and the `errors` key. -/
def InputName.key : InputName → String
  | .title => "title"
  | .recipient_email => "recipient_email"
  | .question_type => "question_type"

/-- The update `{ ...prev, [name]: value }` of `formData`. -/
def FormData.setField (d : FormData) (name : InputName) (value : String) : FormData :=
  match name with
  | .title => { d with title := value }
  | .recipient_email => { d with recipient_email := value }
  | .question_type => { d with question_type := value }

/-- Whether `errors[k]` is truthy: present and not the empty string. -/
def errorShown (k : String) (m : Errors) : Bool :=
  match getKey k m with
  | some v => truthy v
  | none => false

/-- Handler `handleInputChange` (lines 20-26). -/
def handleInputChange (s : FormState) (name : InputName) (value : String) : FormState :=
  { s with
    formData := s.formData.setField name value
    errors := if errorShown name.key s.errors then setKey name.key "" s.errors else s.errors }

/-- The entry built by the callbacks of `Array.from` (lines 38-41) and of `questionTexts.map`
(lines 94-97): `options` is a fresh `['', '']` for multiple choice and `null` otherwise. -/
def newQuestion (question_type text : String) : Question :=
  { text := text
    options := if question_type = "multiple_choice" then some ["", ""] else none }

/-- Handler `handleNumQuestionsChange` (lines 28-43), on `e.target.value = value`. When the
parsed count exceeds the array-length limit, `Array.from` raises after `num_questions` and the
error entry have been updated, and `questions` keeps its value. -/
def handleNumQuestionsChange (s : FormState) (value : String) : Outcome :=
  let formData := { s.formData with num_questions := value }
  let invalid : Outcome := Outcome.ok
    { s with
      formData := formData
      errors := setKey "num_questions" "Please enter a valid number of questions (at least 1)" s.errors
      questions := [] }
  match parseInt value with
  | none => invalid
  | some num =>
    if num < 1 then invalid
    else if num.toNat ≤ maxArrayLength then
      Outcome.ok
        { s with
          formData := formData
          errors := setKey "num_questions" "" s.errors
          questions := List.replicate num.toNat (newQuestion s.formData.question_type "") }
    else
      Outcome.throw JsError.rangeError
        { s with formData := formData, errors := setKey "num_questions" "" s.errors }

/-- The second argument of `handleQuestionChange`: the string `'text'`, or an option index. -/
inductive Field where
  | text
  | option (optIndex : Nat)
deriving DecidableEq, Repr

/-- Handler `handleQuestionChange` (lines 45-53). Reading a property of `undefined` (no question
at `index`) or of `null` (no options) raises before anything is written. The option inputs are
rendered from `question.options.map`, so `optIndex` is below the length at every call the page
can make; a write past the end (which in JavaScript would leave holes) is not produced by the
page and is left unchanged here. -/
def handleQuestionChange (s : FormState) (index : Nat) (field : Field) (value : String) : Outcome :=
  match s.questions[index]? with
  | none => Outcome.throw JsError.typeError s
  | some q =>
    match field with
    | Field.text => Outcome.ok { s with questions := s.questions.set index { q with text := value } }
    | Field.option optIndex =>
      match q.options with
      | none => Outcome.throw JsError.typeError s
      | some options =>
        Outcome.ok
          { s with questions := s.questions.set index { q with options := some (options.set optIndex value) } }

/-- Handler `addOption` (lines 55-59): `options.push('')` with no test of the question type. -/
def addOption (s : FormState) (questionIndex : Nat) : Outcome :=
  match s.questions[questionIndex]? with
  | none => Outcome.throw JsError.typeError s
  | some q =>
    match q.options with
    | none => Outcome.throw JsError.typeError s
    | some options =>
      Outcome.ok
        { s with questions := s.questions.set questionIndex { q with options := some (options ++ [""]) } }

/-- Handler `removeOption` (lines 61-67): `splice(optionIndex, 1)` when more than two options. -/
def removeOption (s : FormState) (questionIndex optionIndex : Nat) : Outcome :=
  match s.questions[questionIndex]? with
  | none => Outcome.throw JsError.typeError s
  | some q =>
    match q.options with
    | none => Outcome.throw JsError.typeError s
    | some options =>
      if options.length > 2 then
        Outcome.ok
          { s with
            questions := s.questions.set questionIndex { q with options := some (options.eraseIdx optionIndex) } }
      else Outcome.ok s

/-- A `FileReader` whose `readAsText` has been started: the `formData.question_type` its
`onload` closure captured at selection time, and the text it will deliver. -/
structure Reader where
  question_type : String
  result : String
deriving DecidableEq, Repr

/-- Handler `handleFileChange` (lines 69-107) up to `reader.readAsText(file)`, on
`e.target.files[0] = file`; the second component is the reader it starts, if any. -/
def handleFileChange (s : FormState) (file : Option File) : FormState × Option Reader :=
  match file with
  | some f =>
    if !endsWith f.name ".txt" then
      ({ s with
         errors := setKey "questions_file" "Please upload a .txt file." s.errors
         questionsFile := none }, none)
    else
      ({ s with
         questionsFile := some f
         useFileUpload := true
         errors := setKey "questions_file" "" s.errors },
       some { question_type := s.formData.question_type, result := f.content })
  | none =>
    ({ s with
       questionsFile := none
       useFileUpload := false
       questions := []
       formData := { s.formData with num_questions := "" } }, none)

/-- The lines kept by `content.split('\n').filter(q => q.trim())`. -/
def questionTexts (content : String) : List String :=
  (splitLines content).filter (fun q => truthy (trim q))

/-- Callback `reader.onload` (lines 83-99), run on the state current when the load completes;
the question type it reads is the one captured in `r`. -/
def onload (r : Reader) (s : FormState) : FormState :=
  if (questionTexts r.result).length = 0 then
    { s with
      errors := setKey "questions_file" "File must contain at least one question." s.errors
      questionsFile := none
      useFileUpload := false }
  else
    { s with
      formData := { s.formData with num_questions := toString (questionTexts r.result).length }
      questions := (questionTexts r.result).map (newQuestion r.question_type) }

/-- The `onChange` of the `question_type` select (lines 312-322). -/
def question_type_onChange (s : FormState) (value : String) : FormState :=
  let s1 := handleInputChange s InputName.question_type value
  { s1 with
    questions := []
    formData := { s1.formData with num_questions := "" }
    questionsFile := none
    useFileUpload := false }

/-- The `onChange` of the `manual_input` radio (lines 339-348). -/
def manual_input_onChange (s : FormState) : FormState :=
  { s with
    useFileUpload := false
    questionsFile := none
    questions := []
    formData := { s.formData with num_questions := "" } }

/-- The `onChange` of the `file_upload` radio (line 362). -/
def file_upload_onChange (s : FormState) : FormState :=
  { s with useFileUpload := true }

/-- Handler `togglePreview` (lines 202-204). -/
def togglePreview (s : FormState) : FormState :=
  { s with previewMode := !s.previewMode }

/-! ## Validation and submission -/

/-- The key `question_${index}`. -/
def questionKey (index : Nat) : String := "question_" ++ toString index

/-- The key `option_${index}_${optIndex}`. -/
def optionKey (index optIndex : Nat) : String :=
  "option_" ++ toString index ++ "_" ++ toString optIndex

/-- The key `options_duplicate_${index}`. -/
def duplicateKey (index : Nat) : String := "options_duplicate_" ++ toString index

/-- The loop `options.forEach((option, optIndex) => ...)` of lines 136-140, from `optIndex` on. -/
def validateOptionTexts (index : Nat) : Nat → List String → Errors → Errors
  | _, [], newErrors => newErrors
  | optIndex, option :: rest, newErrors =>
    validateOptionTexts index (optIndex + 1) rest
      (if !truthy (trim option) then
        setKey (optionKey index optIndex)
          ("Option " ++ toString (optIndex + 1) ++ " for Question " ++ toString (index + 1) ++
            " is required") newErrors
      else newErrors)

/-- Lines 135-145 for one question: the per-option rule, then the uniqueness rule, where
`new Set(trimmedOptions).size` is the number of distinct trimmed options. -/
def validateOptions (index : Nat) (options : List String) (newErrors : Errors) : Errors :=
  let checked := validateOptionTexts index 0 options newErrors
  if (options.map trim).dedup.length ≠ (options.map trim).length then
    setKey (duplicateKey index) ("Options for Question " ++ toString (index + 1) ++ " must be unique")
      checked
  else checked

/-- The body of `questions.forEach` (lines 131-146) for one question. With multiple choice and
`options` equal to `null`, `options.forEach` raises a `TypeError`. -/
def validateQuestion (question_type : String) (index : Nat) (question : Question)
    (newErrors : Errors) : Except JsError Errors :=
  let checked :=
    if !truthy (trim question.text) then
      setKey (questionKey index) ("Question " ++ toString (index + 1) ++ " text is required") newErrors
    else newErrors
  if question_type = "multiple_choice" then
    match question.options with
    | none => Except.error JsError.typeError
    | some options => Except.ok (validateOptions index options checked)
  else Except.ok checked

/-- The loop `questions.forEach((question, index) => ...)` of lines 130-147, from `index` on. -/
def validateQuestions (question_type : String) : Nat → List Question → Errors → Except JsError Errors
  | _, [], newErrors => Except.ok newErrors
  | index, question :: rest, newErrors =>
    match validateQuestion question_type index question newErrors with
    | Except.error e => Except.error e
    | Except.ok checked => validateQuestions question_type (index + 1) rest checked

/-- The comparison `parseInt(num_questions, 10) < 1`, which is false when the parse is `NaN`. -/
def parsesBelowOne (num_questions : String) : Bool :=
  match parseInt num_questions with
  | some num => decide (num < 1)
  | none => false

/-- The rules of lines 112-128 on the top-level fields, in source order. -/
def validateFields (s : FormState) : Errors :=
  let e0 : Errors := []
  let e1 :=
    if !truthy (trim s.formData.title) then setKey "title" "Survey title is required" e0 else e0
  let e2 :=
    if !truthy s.formData.num_questions || parsesBelowOne s.formData.num_questions then
      setKey "num_questions" "Please specify the number of questions (at least 1)" e1
    else e1
  let e3 :=
    if !truthy (trim s.formData.recipient_email) then
      setKey "recipient_email" "Recipient email is required" e2
    else if !emailRegexTest s.formData.recipient_email then
      setKey "recipient_email" "Please enter a valid email address" e2
    else e2
  if s.useFileUpload && s.questionsFile.isNone then
    setKey "questions_file" "Please upload a questions file." e3
  else e3

/-- The object `newErrors` that `validateForm` builds (lines 110-147), or the exception raised
while building it. -/
def validationErrors (s : FormState) : Except JsError Errors :=
  validateQuestions s.formData.question_type 0 s.questions (validateFields s)

/-- Function `validateForm` (lines 109-151): the committed state and the returned boolean. When
building `newErrors` raises, `setErrors` is not reached. -/
def validateForm (s : FormState) : Outcome × Bool :=
  match validationErrors s with
  | Except.error e => (Outcome.throw e s, false)
  | Except.ok newErrors => (Outcome.ok { s with errors := newErrors }, newErrors.isEmpty)

/-- The first argument of `createSurvey`: the plain object of lines 180-185, or the `FormData`
of lines 165-177 whose `questions` part is appended for multiple choice only. That part is
the string `JSON.stringify(questionsWithOptions)`; it is kept here as the list it serializes. -/
inductive Payload where
  | json (title question_type : String) (questions : List Question) (recipient_email : String)
  | multipart (title recipient_email : String) (questions_file : File) (question_type : String)
      (questions : Option (List Question))
deriving DecidableEq, Repr

/-- One call `createSurvey(data, isFileUpload)` of `services/api.js`; `isFileUpload` defaults to
`false` and selects the `multipart/form-data` content type. -/
structure CreateCall where
  data : Payload
  isFileUpload : Bool
deriving DecidableEq, Repr

/-- The call made by lines 164-187 on a state that passed validation. -/
def createCall (s : FormState) : CreateCall :=
  match s.useFileUpload, s.questionsFile with
  | true, some file =>
    { data := Payload.multipart s.formData.title s.formData.recipient_email file
        s.formData.question_type
        (if s.formData.question_type = "multiple_choice" then
          some (s.questions.map (fun q => { text := q.text, options := q.options }))
        else none)
      isFileUpload := true }
  | _, _ =>
    { data := Payload.json s.formData.title s.formData.question_type s.questions
        s.formData.recipient_email
      isFileUpload := false }

/-- Handler `handleSubmit` (lines 153-200) up to the `await`: the committed state, and the
`createSurvey` call it starts, if any. -/
def handleSubmit (s : FormState) : Outcome × Option CreateCall :=
  let validated := validateForm s
  if validated.2 then
    (Outcome.ok { validated.1.state with loading := true }, some (createCall s))
  else (validated.1, none)

/-- A call `showNotification(type, message)`. -/
structure Notification where
  type : String
  message : String
deriving DecidableEq, Repr

/-- What the rest of `handleSubmit` does once the `createSurvey` promise settles: the calls to
`showNotification`, the target of `navigate`, and the new value of `loading`. -/
structure Settled where
  notifications : List Notification
  navigate : Option String
  loading : Bool
deriving DecidableEq, Repr

/-- Lines 188-189 and 197-199: the promise resolved with `response.data.id = id`. -/
def onResolved (id : String) : Settled :=
  { notifications := [{ type := "success", message := "Survey created successfully!" }]
    navigate := some ("/surveys/" ++ id)
    loading := false }

/-- Lines 190-199: the promise rejected; `detail` is `error.response?.data?.detail` when it is
a string, and the fallback message is kept when it is missing or falsy. -/
def onRejected (detail : Option String) : Settled :=
  { notifications :=
      [{ type := "danger"
         message :=
           match detail with
           | some d => if truthy d then d else "Failed to create survey. Please try again."
           | none => "Failed to create survey. Please try again." }]
    navigate := none
    loading := false }

/-! ## The page as a transition system -/

/-- The form together with what surrounds it: the readers and `createSurvey` calls still
outstanding, the calls made so far, the notifications raised, and the route navigated to. -/
structure World where
  form : FormState
  readers : List Reader
  requests : List CreateCall
  calls : List CreateCall
  notifications : List Notification
  navigated : Option String
deriving DecidableEq, Repr

/-- The page right after the form is mounted. -/
def initialWorld : World :=
  { form := initialState
    readers := []
    requests := []
    calls := []
    notifications := []
    navigated := none }

/-- What can happen to the page: a user action on a control, or the completion of a file read or
of a `createSurvey` call. -/
inductive Event where
  | inputChange (name : InputName) (value : String)
  | questionTypeChange (value : String)
  | numQuestionsChange (value : String)
  | questionChange (index : Nat) (field : Field) (value : String)
  | addOption (questionIndex : Nat)
  | removeOption (questionIndex optionIndex : Nat)
  | selectManual
  | selectFileUpload
  | fileChange (file : Option File)
  | fileLoaded (reader : Nat)
  | togglePreview
  | submit
  | createResolved (request : Nat) (id : String)
  | createRejected (request : Nat) (detail : Option String)
  | cancel
deriving DecidableEq, Repr

/-- The number of options question `index` shows; `none` when there is no such question or it
has no options array. -/
def optionCount (s : FormState) (index : Nat) : Option Nat :=
  match s.questions[index]? with
  | some q => q.options.map List.length
  | none => none

/-- Whether the rendered page offers the event: the form is mounted, the control is rendered
(lines 233-509) and not disabled, and a completion refers to an operation still outstanding.
Whether a `change` event really carries a new value is not tested, and neither is the native
validation of the form: in edit mode the browser refuses a submit while the count field (a
number input with `min="1"`) or the recipient field (an e-mail input) holds a value it rejects,
whereas the Create Survey button of the preview calls `handleSubmit` directly. The events
offered here therefore include those of the page. -/
def enabled (w : World) : Event → Bool
  | Event.inputChange name _ =>
    w.navigated.isNone && !w.form.previewMode && !w.form.loading &&
      (name == InputName.title || name == InputName.recipient_email)
  | Event.questionTypeChange value =>
    w.navigated.isNone && !w.form.previewMode && !w.form.loading &&
      (value == "fillup" || value == "multiple_choice")
  | Event.numQuestionsChange _ =>
    w.navigated.isNone && !w.form.previewMode && !w.form.loading && !w.form.useFileUpload
  | Event.questionChange index Field.text _ =>
    w.navigated.isNone && !w.form.previewMode && !w.form.loading && !w.form.useFileUpload &&
      decide (index < w.form.questions.length)
  | Event.questionChange index (Field.option optIndex) _ =>
    w.navigated.isNone && !w.form.previewMode && !w.form.loading &&
      w.form.formData.question_type == "multiple_choice" &&
      (match optionCount w.form index with
       | some n => decide (optIndex < n)
       | none => false)
  | Event.addOption questionIndex =>
    w.navigated.isNone && !w.form.previewMode && !w.form.loading &&
      w.form.formData.question_type == "multiple_choice" &&
      (optionCount w.form questionIndex).isSome
  | Event.removeOption questionIndex optionIndex =>
    w.navigated.isNone && !w.form.previewMode && !w.form.loading &&
      w.form.formData.question_type == "multiple_choice" &&
      (match optionCount w.form questionIndex with
       | some n => decide (2 < n) && decide (optionIndex < n)
       | none => false)
  | Event.selectManual => w.navigated.isNone && !w.form.previewMode && !w.form.loading
  | Event.selectFileUpload => w.navigated.isNone && !w.form.previewMode && !w.form.loading
  | Event.fileChange _ =>
    w.navigated.isNone && !w.form.previewMode && !w.form.loading && w.form.useFileUpload
  | Event.fileLoaded reader => w.navigated.isNone && decide (reader < w.readers.length)
  | Event.togglePreview => w.navigated.isNone && (!w.form.loading || w.form.previewMode)
  | Event.submit => w.navigated.isNone && !w.form.loading
  | Event.createResolved request _ => w.navigated.isNone && decide (request < w.requests.length)
  | Event.createRejected request _ => w.navigated.isNone && decide (request < w.requests.length)
  | Event.cancel => w.navigated.isNone && !w.form.previewMode && !w.form.loading

/-- The page after a `createSurvey` promise has settled; the route changes only when the
continuation calls `navigate`. -/
def settle (w : World) (request : Nat) (r : Settled) : World :=
  { w with
    form := { w.form with loading := r.loading }
    requests := w.requests.eraseIdx request
    notifications := w.notifications ++ r.notifications
    navigated :=
      match r.navigate with
      | some target => some target
      | none => w.navigated }

/-- The effect of an event on the page, whether or not the page offers it. -/
def applyEvent (w : World) : Event → World
  | Event.inputChange name value => { w with form := handleInputChange w.form name value }
  | Event.questionTypeChange value => { w with form := question_type_onChange w.form value }
  | Event.numQuestionsChange value => { w with form := (handleNumQuestionsChange w.form value).state }
  | Event.questionChange index field value =>
    { w with form := (handleQuestionChange w.form index field value).state }
  | Event.addOption questionIndex => { w with form := (addOption w.form questionIndex).state }
  | Event.removeOption questionIndex optionIndex =>
    { w with form := (removeOption w.form questionIndex optionIndex).state }
  | Event.selectManual => { w with form := manual_input_onChange w.form }
  | Event.selectFileUpload => { w with form := file_upload_onChange w.form }
  | Event.fileChange file =>
    { w with
      form := (handleFileChange w.form file).1
      readers := w.readers ++ (handleFileChange w.form file).2.toList }
  | Event.fileLoaded reader =>
    match w.readers[reader]? with
    | some r => { w with form := onload r w.form, readers := w.readers.eraseIdx reader }
    | none => w
  | Event.togglePreview => { w with form := togglePreview w.form }
  | Event.submit =>
    { w with
      form := (handleSubmit w.form).1.state
      requests := w.requests ++ (handleSubmit w.form).2.toList
      calls := w.calls ++ (handleSubmit w.form).2.toList }
  | Event.createResolved request id => settle w request (onResolved id)
  | Event.createRejected request detail => settle w request (onRejected detail)
  | Event.cancel => { w with navigated := some "/surveys" }

/-- One step of the page: `none` when the page does not offer the event. -/
def step (w : World) (e : Event) : Option World :=
  if enabled w e then some (applyEvent w e) else none

/-- The page after a sequence of events, `none` as soon as one of them is not offered. -/
def run (w : World) : List Event → Option World
  | [] => some w
  | e :: rest =>
    match step w e with
    | some w1 => run w1 rest
    | none => none

/-- The pages the user can bring about from a freshly mounted form. -/
def Reachable (w : World) : Prop := ∃ events : List Event, run initialWorld events = some w

/-! ## State predicates used in the statements -/

/-- The count field and the question list agree: whenever `num_questions` parses as an integer
between 1 and the array-length limit, `questions` has that many entries. -/
def CountInSync (s : FormState) : Prop :=
  ∀ n : Int, parseInt s.formData.num_questions = some n → 1 ≤ n → n ≤ 4294967295 →
    (s.questions.length : Int) = n

/-- The form whose submission the test `allows filling and submitting multiple choice
questions` expects (`SurveyForm.test.js`, lines 142-149): the fields of the expected payload. -/
def filledTestForm : FormState :=
  { formData :=
      { title := "Test Survey", recipient_email := "test@example.com",
        question_type := "multiple_choice", num_questions := "1" }
    questions := [{ text := "Favorite Color?", options := some ["Red", "Green"] }]
    useFileUpload := false
    questionsFile := none
    errors := [("num_questions", "")]
    loading := false
    previewMode := false }

/-- The same form with the questions imported from `questions.txt` instead. -/
def importedTestForm : FormState :=
  { filledTestForm with
    useFileUpload := true
    questionsFile := some { name := "questions.txt", content := "Favorite Color?" } }

/-- The shape the data model gives a draft: under multiple choice every question carries an
options array. -/
def HasOptions (s : FormState) : Prop :=
  s.formData.question_type = "multiple_choice" → ∀ q ∈ s.questions, q.options ≠ none

/-- The keys that the body of `questions.forEach` can write for the question at `index`. -/
def LoopKey (index : Nat) (k : String) : Prop :=
  k = questionKey index ∨ (∃ optIndex, k = optionKey index optIndex) ∨ k = duplicateKey index

/-- The shape `local@domain.tld` in the words of the specification: no white space, and the
string is `a ++ "@" ++ b ++ "." ++ c` for some non-empty `a`, `b` and `c`. -/
def EmailShaped (s : String) : Prop :=
  (∀ ch ∈ s.data, isJsWhiteSpace ch = false) ∧
    ∃ a b c : List Char, a ≠ [] ∧ b ≠ [] ∧ c ≠ [] ∧ s.data = a ++ '@' :: (b ++ '.' :: c)

/-- Two options at different positions are equal after trimming. -/
def HasRepeatedOption (options : List String) : Prop :=
  ∃ (j1 j2 : Nat) (o1 o2 : String),
    j1 < j2 ∧ options[j1]? = some o1 ∧ options[j2]? = some o2 ∧ trim o1 = trim o2

/-! ## The preview (lines 206-231) -/

/-- One card of the preview: the subtitle `Question {index + 1}`, the question text, and the
items of the option list when that list is rendered. -/
structure PreviewCard where
  subtitle : String
  text : String
  items : Option (List String)
deriving DecidableEq, Repr

/-- What `renderQuestionPreview` returns: the paragraph shown when there is no question, or the
heading followed by one card per question. -/
inductive Preview where
  | noQuestions (text : String)
  | survey (heading : String) (cards : List PreviewCard)
deriving DecidableEq, Repr

/-- The items `question.options.map((option, optIndex) => option || 'Option ' + (optIndex + 1))`
of line 221-223, from `optIndex` on. -/
def previewItems : Nat → List String → List String
  | _, [] => []
  | optIndex, option :: rest =>
    (if truthy option then option else "Option " ++ toString (optIndex + 1)) ::
      previewItems (optIndex + 1) rest

/-- The card of one question (lines 215-227): the option list is rendered when the type is
multiple choice and `question.options` is not `null`. -/
def previewCard (question_type : String) (index : Nat) (question : Question) : PreviewCard :=
  { subtitle := "Question " ++ toString (index + 1)
    text := question.text
    items :=
      if question_type = "multiple_choice" then
        match question.options with
        | some options => some (previewItems 0 options)
        | none => none
      else none }

/-- The cards `questions.map((question, index) => ...)` of line 214, from `index` on. -/
def previewCards (question_type : String) : Nat → List Question → List PreviewCard
  | _, [] => []
  | index, question :: rest =>
    previewCard question_type index question :: previewCards question_type (index + 1) rest

/-- Function `renderQuestionPreview` (lines 206-231). It reads the state and returns the
rendered tree; it calls no state setter. -/
def renderQuestionPreview (s : FormState) : Preview :=
  if s.questions.length = 0 then Preview.noQuestions "No questions added yet."
  else
    Preview.survey (if truthy s.formData.title then s.formData.title else "Untitled Survey")
      (previewCards s.formData.question_type 0 s.questions)

/-! ## The notification banner of `App.js` -/

/-- The `notification` state of `App` (line 9); `type` is `null` when nothing is to be shown. -/
structure Banner where
  type : Option String
  message : String
deriving DecidableEq, Repr

/-- The value `{ type: null, message: '' }`. -/
def noBanner : Banner := { type := none, message := "" }

/-- Whether the alert is rendered (line 478): `notification.type` is truthy. -/
def Banner.shown (b : Banner) : Bool :=
  match b.type with
  | some t => truthy t
  | none => false

/-- The banner together with the `setTimeout` callbacks still pending, each with the number of
milliseconds left before it runs. -/
structure AppState where
  notification : Banner
  timers : List Nat
deriving DecidableEq, Repr

/-- The application on mount. -/
def initialApp : AppState := { notification := noBanner, timers := [] }

/-- Function `showNotification` (lines 11-16): the banner is replaced and a callback that
clears the banner is scheduled 5000 ms ahead; no pending callback is cancelled. -/
def showNotification (a : AppState) (type message : String) : AppState :=
  { notification := { type := some type, message := message }
    timers := a.timers ++ [5000] }

/-- The `onClick` of the close button (line 484). -/
def closeNotification (a : AppState) : AppState :=
  { a with notification := noBanner }

/-- The passing of `ms` milliseconds during which no other event occurs: every callback whose
delay has run out runs (at the moment it is due) and clears the banner, the others move `ms`
closer. -/
def elapse (a : AppState) (ms : Nat) : AppState :=
  { notification := if a.timers.any (fun t => decide (t ≤ ms)) then noBanner else a.notification
    timers := (a.timers.filter (fun t => decide (ms < t))).map (fun t => t - ms) }

/-- The page keeps at most one `createSurvey` call outstanding, and `loading` is set exactly
while one is. -/
def OneRequest (w : World) : Prop :=
  (w.form.loading = true ∧ w.requests.length = 1) ∨ (w.form.loading = false ∧ w.requests = [])

/-- An attached file without a usable line still has its read outstanding: once the read of
such a file completes, `onload` detaches it. -/
def BlankFilePending (w : World) : Prop :=
  ∀ f, w.form.questionsFile = some f → questionTexts f.content = [] →
    ∃ r ∈ w.readers, r.result = f.content

/-! # Theorems -/

/-! ## Basic facts on the error object -/

theorem getKey_setKey (k k0 v : String) (m : Errors) :
    getKey k (setKey k0 v m) = if k = k0 then some v else getKey k m := by
  induction m with
  | nil =>
    by_cases h : k = k0
    · simp [setKey, getKey, h]
    · have h2 : ¬ k0 = k := fun e => h e.symm
      simp [setKey, getKey, h, h2]
  | cons p rest ih =>
    obtain ⟨k1, v1⟩ := p
    by_cases h1 : k1 = k0 <;> by_cases h : k = k0 <;> by_cases h4 : k1 = k <;>
      simp_all [setKey, getKey]

theorem getKey_setKey_self (k v : String) (m : Errors) : getKey k (setKey k v m) = some v := by
  rw [getKey_setKey]; simp

/-! ## C1: the count rule of `validateForm` -/

/-- C1 (defect in the code): a count field that holds `".5"` or `"abc"` does not parse as an
integer (`parseInt` gives `NaN`), yet `validateForm` builds no `num_questions` entry for it,
because `NaN < 1` is false and the rule has no `isNaN` test; the sibling handler
`handleNumQuestionsChange` does reject the same input. -/
theorem validateForm_unparsable_count_not_reported :
    parseInt ".5" = none ∧ parseInt "abc" = none ∧
    validationErrors
        { initialState with formData := { initialState.formData with num_questions := ".5" } } =
      Except.ok [("title", "Survey title is required"),
        ("recipient_email", "Recipient email is required")] ∧
    validationErrors
        { initialState with formData := { initialState.formData with num_questions := "abc" } } =
      Except.ok [("title", "Survey title is required"),
        ("recipient_email", "Recipient email is required")] ∧
    validationErrors
        { initialState with
          formData :=
            { title := "T", recipient_email := "a@b.com", question_type := "fillup",
              num_questions := ".5" } } = Except.ok [] ∧
    getKey "num_questions" (handleNumQuestionsChange initialState ".5").state.errors =
      some "Please enter a valid number of questions (at least 1)" := by
  decide

/-! ## C2 and C3: `handleNumQuestionsChange` -/

/-- C2 (counterexample): the inputs `"1.5"` and `"2abc"` are not positive integers, yet the
handler reads them as 1 and 2: the count-field error is the empty string and `questions` is not
empty. -/
theorem handleNumQuestionsChange_accepts_leading_integer :
    (handleNumQuestionsChange initialState "1.5").state.questions =
      [{ text := "", options := none }] ∧
    getKey "num_questions" (handleNumQuestionsChange initialState "1.5").state.errors = some "" ∧
    (handleNumQuestionsChange initialState "2abc").state.questions =
      [{ text := "", options := none }, { text := "", options := none }] ∧
    getKey "num_questions" (handleNumQuestionsChange initialState "2abc").state.errors = some "" := by
  decide

/-- C2 (amended): when `parseInt` of the count input is `NaN` or below 1, the handler does not
raise, stores the input, sets the non-empty count-field error and leaves `questions` empty. -/
theorem handleNumQuestionsChange_invalid (s : FormState) (value : String)
    (h : ∀ num, parseInt value = some num → num < 1) :
    (handleNumQuestionsChange s value).raised = none ∧
    (handleNumQuestionsChange s value).state.questions = [] ∧
    getKey "num_questions" (handleNumQuestionsChange s value).state.errors =
      some "Please enter a valid number of questions (at least 1)" ∧
    errorShown "num_questions" (handleNumQuestionsChange s value).state.errors = true ∧
    (handleNumQuestionsChange s value).state.formData.num_questions = value := by
  have key : handleNumQuestionsChange s value = Outcome.ok
      { s with
        formData := { s.formData with num_questions := value }
        errors := setKey "num_questions" "Please enter a valid number of questions (at least 1)" s.errors
        questions := [] } := by
    unfold handleNumQuestionsChange
    cases hp : parseInt value with
    | none => rfl
    | some num => simp [h num hp]
  rw [key]
  refine ⟨rfl, rfl, ?_, ?_, rfl⟩
  · exact getKey_setKey_self _ _ _
  · simp only [errorShown, Outcome.ok, getKey_setKey_self]
    decide

/-- C2 (witness): the empty string, `"abc"`, `"0"`, `"-3"` and `".5"` are such inputs. -/
theorem handleNumQuestionsChange_invalid_witness :
    (∀ num, parseInt "abc" = some num → num < 1) ∧
    (handleNumQuestionsChange initialState "abc").raised = none ∧
    (handleNumQuestionsChange initialState "abc").state.questions = [] ∧
    getKey "num_questions" (handleNumQuestionsChange initialState "abc").state.errors =
      some "Please enter a valid number of questions (at least 1)" ∧
    errorShown "num_questions" (handleNumQuestionsChange initialState "abc").state.errors = true ∧
    (handleNumQuestionsChange initialState "abc").state.formData.num_questions = "abc" :=
  ⟨by decide, handleNumQuestionsChange_invalid initialState "abc" (by decide)⟩

/-- The outcome of `handleNumQuestionsChange` on an input whose parsed count lies between 1 and
the array-length limit. -/
theorem handleNumQuestionsChange_eq_of_valid (s : FormState) (value : String) (num : Int)
    (hp : parseInt value = some num) (h1 : 1 ≤ num) (h2 : num ≤ 4294967295) :
    handleNumQuestionsChange s value = Outcome.ok
      { s with
        formData := { s.formData with num_questions := value }
        errors := setKey "num_questions" "" s.errors
        questions := List.replicate num.toNat (newQuestion s.formData.question_type "") } := by
  have hlt : ¬ num < 1 := by omega
  have hle : num.toNat ≤ maxArrayLength := by
    have : maxArrayLength = 4294967295 := by decide
    omega
  unfold handleNumQuestionsChange
  simp [hp, hlt, hle]

/-- C3 (counterexample): the count `4294967296` parses as an integer at least 1, but `Array.from`
raises a `RangeError` for that length: the handler fails and `questions` stays empty. -/
theorem handleNumQuestionsChange_raises_beyond_array_limit :
    parseInt "4294967296" = some 4294967296 ∧
    (handleNumQuestionsChange initialState "4294967296").raised = some JsError.rangeError ∧
    (handleNumQuestionsChange initialState "4294967296").state.questions = [] := by
  decide

/-- C3 (amended): for a count input whose parsed value `num` satisfies `1 ≤ num ≤ 2 ^ 32 - 1`,
the handler does not raise and `questions` becomes `num` entries, each with empty text and with
`['', '']` as options under multiple choice and `null` otherwise; the result is the same
whatever the prior `questions`, and the count-field error is the empty string. -/
theorem handleNumQuestionsChange_valid (s : FormState) (value : String) (num : Int)
    (hp : parseInt value = some num) (h1 : 1 ≤ num) (h2 : num ≤ 4294967295) :
    (handleNumQuestionsChange s value).raised = none ∧
    ((handleNumQuestionsChange s value).state.questions.length : Int) = num ∧
    (∀ q ∈ (handleNumQuestionsChange s value).state.questions,
      q.text = "" ∧
      q.options = if s.formData.question_type = "multiple_choice" then some ["", ""] else none) ∧
    (∀ prior : List Question,
      (handleNumQuestionsChange { s with questions := prior } value).state.questions =
        (handleNumQuestionsChange s value).state.questions) ∧
    getKey "num_questions" (handleNumQuestionsChange s value).state.errors = some "" ∧
    errorShown "num_questions" (handleNumQuestionsChange s value).state.errors = false ∧
    (handleNumQuestionsChange s value).state.formData =
      { s.formData with num_questions := value } := by
  rw [handleNumQuestionsChange_eq_of_valid s value num hp h1 h2]
  refine ⟨rfl, ?_, ?_, ?_, ?_, ?_, rfl⟩
  · simp only [Outcome.ok, List.length_replicate]
    omega
  · intro q hq
    simp only [Outcome.ok] at hq
    rw [List.eq_of_mem_replicate hq]
    exact ⟨rfl, rfl⟩
  · intro prior
    rw [handleNumQuestionsChange_eq_of_valid { s with questions := prior } value num hp h1 h2]
  · exact getKey_setKey_self _ _ _
  · simp only [errorShown, Outcome.ok, getKey_setKey_self]
    rfl

/-- C3 (witness): the count `"3"` under multiple choice. -/
theorem handleNumQuestionsChange_valid_witness :
    parseInt "3" = some 3 ∧
    (handleNumQuestionsChange
        { initialState with formData := { initialState.formData with question_type := "multiple_choice" } }
        "3").state.questions =
      [{ text := "", options := some ["", ""] }, { text := "", options := some ["", ""] },
        { text := "", options := some ["", ""] }] ∧
    ((handleNumQuestionsChange
        { initialState with formData := { initialState.formData with question_type := "multiple_choice" } }
        "3").state.questions.length : Int) = 3 :=
  ⟨by decide, by decide,
    (handleNumQuestionsChange_valid
      { initialState with formData := { initialState.formData with question_type := "multiple_choice" } }
      "3" 3 (by decide) (by decide) (by decide)).2.1⟩

/-! ## C4 and C6: shape of the question list in reachable states -/

/-- C4 (defect in the code): the `onload` closure uses the question type captured when the file
was selected. A type change between selection and load completion clears `questions`, and the
load then refills it in the old shape: under `fillup` the question carries `['', '']`, and in
the mirrored run the question carries `null` under `multiple_choice`. -/
theorem stale_question_type_breaks_option_shape :
    (run initialWorld
        [Event.questionTypeChange "multiple_choice", Event.selectFileUpload,
          Event.fileChange (some { name := "q.txt", content := "Q1" }),
          Event.questionTypeChange "fillup", Event.fileLoaded 0]).map
      (fun w => (w.form.formData.question_type, w.form.questions)) =
      some ("fillup", [{ text := "Q1", options := some ["", ""] }]) ∧
    (run initialWorld
        [Event.selectFileUpload, Event.fileChange (some { name := "q.txt", content := "Q1" }),
          Event.questionTypeChange "multiple_choice", Event.fileLoaded 0]).map
      (fun w => (w.form.formData.question_type, w.form.questions)) =
      some ("multiple_choice", [{ text := "Q1", options := none }]) := by
  decide

/-- C6 (defect in the code): the `file_upload` radio only sets `useFileUpload`; unlike the
`manual_input` radio it does not clear `questions`. A text typed in manual mode is therefore
still in `questions` in file mode, with no file selected or read at any point. -/
theorem manual_text_survives_into_file_mode :
    run initialWorld
        [Event.numQuestionsChange "1", Event.questionChange 0 Field.text "typed by hand",
          Event.selectFileUpload] =
      some
        { form :=
            { formData :=
                { title := "", recipient_email := "", question_type := "fillup",
                  num_questions := "1" }
              questions := [{ text := "typed by hand", options := none }]
              useFileUpload := true
              questionsFile := none
              errors := [("num_questions", "")]
              loading := false
              previewMode := false }
          readers := []
          requests := []
          calls := []
          notifications := []
          navigated := none } := by
  decide

/-! ## C7, C8 and C9: `removeOption` and `addOption` -/

/-- Writing position `i` of a list leaves every other position as it was. -/
theorem getElem?_set_other (qs : List Question) (i k : Nat) (q : Question) (h : k ≠ i) :
    (qs.set i q)[k]? = qs[k]? := by
  rw [List.getElem?_set]
  simp [Ne.symm h]

/-- C7: when question `i` has options `os` and `j` is one of their positions, `removeOption`
does not raise; with more than two options the new options are `os` without position `j` (the
options before `j` followed by those after it, one fewer in all), the question text, the number
of questions and every other question are unchanged; with exactly two options nothing changes. -/
theorem removeOption_spec (s : FormState) (i j : Nat) (q : Question) (os : List String)
    (hq : s.questions[i]? = some q) (ho : q.options = some os) (hj : j < os.length) :
    (removeOption s i j).raised = none ∧
    (2 < os.length →
      (removeOption s i j).state.questions[i]? =
          some { text := q.text, options := some (os.take j ++ os.drop (j + 1)) } ∧
        (os.take j ++ os.drop (j + 1)).length + 1 = os.length ∧
        (removeOption s i j).state.questions.length = s.questions.length ∧
        (∀ k, k ≠ i → (removeOption s i j).state.questions[k]? = s.questions[k]?) ∧
        (removeOption s i j).state = { s with questions := (removeOption s i j).state.questions }) ∧
    (os.length = 2 → removeOption s i j = Outcome.ok s) := by
  have hi : i < s.questions.length := by
    rcases Nat.lt_or_ge i s.questions.length with h | h
    · exact h
    · rw [List.getElem?_eq_none h] at hq
      cases hq
  unfold removeOption
  simp only [hq, ho]
  by_cases h2 : os.length > 2
  · simp only [h2, if_true]
    refine ⟨rfl, ?_, ?_⟩
    · intro _
      refine ⟨?_, ?_, ?_, ?_, rfl⟩
      · simp only [Outcome.ok]
        rw [List.getElem?_set_self hi, List.eraseIdx_eq_take_drop_succ]
      · simp only [List.length_append, List.length_take, List.length_drop]
        omega
      · simp [Outcome.ok]
      · intro k hk
        exact getElem?_set_other _ _ _ _ hk
    · intro h
      omega
  · have h3 : ¬ 2 < os.length := h2
    rw [if_neg h2]
    exact ⟨rfl, fun h => absurd h h3, fun _ => rfl⟩

/-- C7 (witness): removing the middle one of three options, and refusing with two. -/
theorem removeOption_spec_witness :
    (removeOption
        { initialState with questions := [{ text := "Q", options := some ["a", "b", "c"] }] }
        0 1).state.questions = [{ text := "Q", options := some ["a", "c"] }] ∧
    (removeOption
        { initialState with questions := [{ text := "Q", options := some ["a", "b", "c"] }] }
        0 1).raised = none :=
  ⟨by decide,
    (removeOption_spec
      { initialState with questions := [{ text := "Q", options := some ["a", "b", "c"] }] }
      0 1 { text := "Q", options := some ["a", "b", "c"] } ["a", "b", "c"]
      (by decide) (by decide) (by decide)).1⟩

/-- C8: when question `i` has options `os` (as every question of a multiple-choice form that
renders has), `addOption` does not raise; the new options are `os` followed by one empty string,
the question text, the number of questions and every other question are unchanged, and so is
the rest of the state. -/
theorem addOption_spec (s : FormState) (i : Nat) (q : Question) (os : List String)
    (hq : s.questions[i]? = some q) (ho : q.options = some os) :
    (addOption s i).raised = none ∧
    (addOption s i).state.questions[i]? = some { text := q.text, options := some (os ++ [""]) } ∧
    (addOption s i).state.questions.length = s.questions.length ∧
    (∀ k, k ≠ i → (addOption s i).state.questions[k]? = s.questions[k]?) ∧
    (addOption s i).state = { s with questions := (addOption s i).state.questions } := by
  have hi : i < s.questions.length := by
    rcases Nat.lt_or_ge i s.questions.length with h | h
    · exact h
    · rw [List.getElem?_eq_none h] at hq
      cases hq
  unfold addOption
  simp only [hq, ho]
  refine ⟨rfl, ?_, ?_, ?_, rfl⟩
  · simp only [Outcome.ok]
    rw [List.getElem?_set_self hi]
  · simp [Outcome.ok]
  · intro k hk
    exact getElem?_set_other _ _ _ _ hk

/-- C8 (witness): a third option is appended to the first of two questions. -/
theorem addOption_spec_witness :
    (addOption
        { initialState with
          formData := { initialState.formData with question_type := "multiple_choice" }
          questions :=
            [{ text := "Q", options := some ["a", "b"] }, { text := "R", options := some ["", ""] }] }
        0).state.questions =
      [{ text := "Q", options := some ["a", "b", ""] }, { text := "R", options := some ["", ""] }] ∧
    (addOption
        { initialState with
          formData := { initialState.formData with question_type := "multiple_choice" }
          questions :=
            [{ text := "Q", options := some ["a", "b"] }, { text := "R", options := some ["", ""] }] }
        0).raised = none :=
  ⟨by decide,
    (addOption_spec
      { initialState with
        formData := { initialState.formData with question_type := "multiple_choice" }
        questions :=
          [{ text := "Q", options := some ["a", "b"] }, { text := "R", options := some ["", ""] }] }
      0 { text := "Q", options := some ["a", "b"] } ["a", "b"] (by decide) (by decide)).1⟩

/-- C9 (counterexample): in the short-answer form with one question, reached by typing the
count `1`, `addOption(0)` does not complete: `options` is `null` and `push` raises. -/
theorem addOption_raises_on_short_answer :
    (handleNumQuestionsChange initialState "1").state.formData.question_type = "fillup" ∧
    (handleNumQuestionsChange initialState "1").state.questions = [{ text := "", options := none }] ∧
    (addOption (handleNumQuestionsChange initialState "1").state 0).raised =
      some JsError.typeError := by
  decide

/-- C9 (amended): for a question without an options array, `addOption` raises a `TypeError`
before any update, so the whole state is unchanged; and the page does not offer Add Option
unless the question type is multiple choice. -/
theorem addOption_without_options (s : FormState) (i : Nat) (q : Question)
    (hq : s.questions[i]? = some q) (ho : q.options = none) :
    addOption s i = Outcome.throw JsError.typeError s ∧
    (addOption s i).state = s ∧
    ∀ w : World, w.form.formData.question_type ≠ "multiple_choice" →
      enabled w (Event.addOption i) = false := by
  refine ⟨?_, ?_, ?_⟩
  · unfold addOption
    simp only [hq, ho]
  · unfold addOption
    simp only [hq, ho]
    rfl
  · intro w hw
    simp [enabled, hw]

/-- C9 (witness): the short-answer form with one question. -/
theorem addOption_without_options_witness :
    addOption { initialState with questions := [{ text := "", options := none }] } 0 =
      Outcome.throw JsError.typeError
        { initialState with questions := [{ text := "", options := none }] } :=
  (addOption_without_options { initialState with questions := [{ text := "", options := none }] } 0
    { text := "", options := none } (by decide) (by decide)).1

/-! ## Decimal numerals: `parseInt` reads back what `toString` writes -/

theorem digitsValue_append_singleton (l : List Char) (c : Char) :
    digitsValue (l ++ [c]) = 10 * digitsValue l + (c.toNat - 48) := by
  simp [digitsValue, List.foldl_append]

theorem digitChar_isDigit (k : Nat) (h : k < 10) : (Nat.digitChar k).isDigit = true := by
  interval_cases k <;> decide

theorem digitChar_value (k : Nat) (h : k < 10) : (Nat.digitChar k).toNat - 48 = k := by
  interval_cases k <;> decide

/-- With enough fuel, `Nat.toDigitsCore` puts in front of `ds` a non-empty list of decimal
digits whose value is `n`. -/
theorem toDigitsCore_spec (fuel : Nat) :
    ∀ (n : Nat) (ds : List Char), n < fuel →
      ∃ l : List Char, Nat.toDigitsCore 10 fuel n ds = l ++ ds ∧ l ≠ [] ∧
        (∀ c ∈ l, c.isDigit = true) ∧ digitsValue l = n := by
  induction fuel with
  | zero => intro n ds h; omega
  | succ fuel ih =>
    intro n ds h
    unfold Nat.toDigitsCore
    by_cases h0 : n / 10 = 0
    · refine ⟨[Nat.digitChar (n % 10)], ?_, ?_, ?_, ?_⟩
      · simp [h0]
      · simp
      · intro c hc
        rw [List.mem_singleton] at hc
        rw [hc]
        exact digitChar_isDigit _ (Nat.mod_lt _ (by decide))
      · have : digitsValue [Nat.digitChar (n % 10)] = (Nat.digitChar (n % 10)).toNat - 48 := by
          simp [digitsValue]
        rw [this, digitChar_value _ (Nat.mod_lt _ (by decide))]
        omega
    · have hlt : n / 10 < fuel := by omega
      obtain ⟨l, hl, hne, hdig, hval⟩ := ih (n / 10) (Nat.digitChar (n % 10) :: ds) hlt
      refine ⟨l ++ [Nat.digitChar (n % 10)], ?_, ?_, ?_, ?_⟩
      · simp [h0, hl]
      · simp
      · intro c hc
        rw [List.mem_append, List.mem_singleton] at hc
        rcases hc with hc | hc
        · exact hdig c hc
        · rw [hc]
          exact digitChar_isDigit _ (Nat.mod_lt _ (by decide))
      · rw [digitsValue_append_singleton, hval, digitChar_value _ (Nat.mod_lt _ (by decide))]
        omega

/-- The characters of `toString n` are decimal digits, at least one, with value `n`. -/
theorem toString_digits (n : Nat) :
    (toString n).data ≠ [] ∧ (∀ c ∈ (toString n).data, c.isDigit = true) ∧
      digitsValue (toString n).data = n := by
  obtain ⟨l, hl, hne, hdig, hval⟩ := toDigitsCore_spec (n + 1) n [] (Nat.lt_succ_self n)
  have hdata : (toString n).data = l := by
    show (Nat.repr n).data = l
    simp [Nat.repr, Nat.toDigits, hl, List.asString]
  rw [hdata]
  exact ⟨hne, hdig, hval⟩

theorem isDigit_not_whiteSpace (c : Char) (h : c.isDigit = true) : isJsWhiteSpace c = false := by
  have h1 : 48 ≤ c.toNat ∧ c.toNat ≤ 57 := by
    simp only [Char.isDigit, Bool.and_eq_true, decide_eq_true_eq] at h
    exact ⟨h.1, h.2⟩
  simp only [isJsWhiteSpace, Bool.or_eq_false_iff, Bool.and_eq_false_iff, beq_eq_false_iff_ne,
    decide_eq_false_iff_not]
  omega

theorem parseSign_of_digit (c : Char) (cs : List Char) (h : c.isDigit = true) :
    parseSign (c :: cs) = (false, c :: cs) := by
  have h1 : 48 ≤ c.toNat ∧ c.toNat ≤ 57 := by
    simp only [Char.isDigit, Bool.and_eq_true, decide_eq_true_eq] at h
    exact ⟨h.1, h.2⟩
  unfold parseSign
  split
  · rename_i heq
    injection heq with hc _
    rw [hc] at h1
    exact absurd h1 (by decide)
  · rename_i heq
    injection heq with hc _
    rw [hc] at h1
    exact absurd h1 (by decide)
  · rfl

/-- Reading back a count written by `toString`: `parseInt(String(n), 10)` is `n`. -/
theorem parseInt_toString (n : Nat) : parseInt (toString n) = some (n : Int) := by
  obtain ⟨hne, hdig, hval⟩ := toString_digits n
  cases hd : (toString n).data with
  | nil => exact absurd hd hne
  | cons c cs =>
    rw [hd] at hdig hval
    have hc : c.isDigit = true := hdig c (List.mem_cons_self _ _)
    have hdrop : (c :: cs).dropWhile isJsWhiteSpace = c :: cs := by
      simp [List.dropWhile, isDigit_not_whiteSpace c hc]
    have htake : (c :: cs).takeWhile Char.isDigit = c :: cs := by
      rw [List.takeWhile_eq_self_iff]
      exact hdig
    unfold parseInt
    simp only [hd, hdrop, parseSign_of_digit c cs hc, htake, hval]
    simp

/-! ## Splitting into lines and trimming -/

theorem splitLineChars_ne_nil (cs : List Char) : splitLineChars cs ≠ [] := by
  induction cs with
  | nil => simp [splitLineChars]
  | cons c cs ih =>
    unfold splitLineChars
    cases h : splitLineChars cs with
    | nil => exact absurd h ih
    | cons l ls =>
      by_cases hc : c = '\n' <;> simp [hc]

/-- Joining the pieces of `split('\n')` with line feeds gives the content back. -/
theorem intercalate_splitLineChars (cs : List Char) :
    List.intercalate ['\n'] (splitLineChars cs) = cs := by
  induction cs with
  | nil => simp [splitLineChars, List.intercalate]
  | cons c cs ih =>
    unfold splitLineChars
    cases h : splitLineChars cs with
    | nil => exact absurd h (splitLineChars_ne_nil cs)
    | cons l ls =>
      rw [h] at ih
      by_cases hc : c = '\n'
      · simp only [hc, if_true]
        have : List.intercalate ['\n'] ([] :: l :: ls) = '\n' :: List.intercalate ['\n'] (l :: ls) := by
          simp [List.intercalate, List.intersperse]
        rw [this, ih]
      · simp only [hc, if_false]
        have : List.intercalate ['\n'] ((c :: l) :: ls) = c :: List.intercalate ['\n'] (l :: ls) := by
          cases ls <;> simp [List.intercalate, List.intersperse]
        rw [this, ih]

/-- No piece of `split('\n')` contains a line feed. -/
theorem splitLineChars_no_newline (cs : List Char) :
    ∀ l ∈ splitLineChars cs, '\n' ∉ l := by
  induction cs with
  | nil => simp [splitLineChars]
  | cons c cs ih =>
    unfold splitLineChars
    cases h : splitLineChars cs with
    | nil => exact absurd h (splitLineChars_ne_nil cs)
    | cons l ls =>
      rw [h] at ih
      have hl : '\n' ∉ l := ih l (List.mem_cons_self _ _)
      have hls : ∀ x ∈ ls, '\n' ∉ x := fun x hx => ih x (List.mem_cons_of_mem _ hx)
      by_cases hc : c = '\n'
      · simp only [hc, if_true]
        intro x hx
        rcases List.mem_cons.mp hx with rfl | hx
        · simp
        · exact ih x hx
      · simp only [hc, if_false]
        intro x hx
        rcases List.mem_cons.mp hx with rfl | hx
        · intro hmem
          rcases List.mem_cons.mp hmem with h1 | h1
          · exact hc h1.symm
          · exact hl h1
        · exact hls x hx

/-- The trimmed string is empty exactly when every character is white space. -/
theorem trimChars_eq_nil_iff (cs : List Char) :
    trimChars cs = [] ↔ ∀ c ∈ cs, isJsWhiteSpace c = true := by
  unfold trimChars
  rw [List.reverse_eq_nil_iff, List.dropWhile_eq_nil_iff]
  constructor
  · intro h
    have h1 : ∀ x ∈ cs.dropWhile isJsWhiteSpace, isJsWhiteSpace x = true :=
      fun x hx => h x (List.mem_reverse.mpr hx)
    have h2 : (cs.dropWhile isJsWhiteSpace).dropWhile isJsWhiteSpace = [] :=
      List.dropWhile_eq_nil_iff.mpr h1
    rw [List.dropWhile_idempotent] at h2
    exact List.dropWhile_eq_nil_iff.mp h2
  · intro h x hx
    have h2 : cs.dropWhile isJsWhiteSpace = [] := List.dropWhile_eq_nil_iff.mpr h
    rw [h2] at hx
    simp at hx

/-- A line passes the filter `q => q.trim()` exactly when it has a character that is not white
space. -/
theorem truthy_trim_iff (q : String) :
    truthy (trim q) = true ↔ ∃ c ∈ q.data, isJsWhiteSpace c = false := by
  have h := trimChars_eq_nil_iff q.data
  unfold truthy trim
  simp only [Bool.not_eq_true', List.isEmpty_eq_false]
  rw [Ne, h]
  simp

/-! ## C10: importing the lines of a file -/

/-- The reader started by `handleFileChange` for a `.txt` file captures the question type of the
state in which the file was selected, and will deliver the file content. -/
theorem handleFileChange_reader (s : FormState) (f : File) (r : Reader)
    (hr : (handleFileChange s (some f)).2 = some r) :
    r = { question_type := s.formData.question_type, result := f.content } ∧
    (handleFileChange s (some f)).1.formData = s.formData := by
  unfold handleFileChange at hr ⊢
  by_cases h : endsWith f.name ".txt" = true
  · simp only [h, Bool.not_true] at hr ⊢
    simp only [Bool.false_eq_true, if_false, Option.some.injEq] at hr ⊢
    exact ⟨hr.symm, trivial⟩
  · simp only [Bool.not_eq_true] at h
    simp only [h, Bool.not_false, if_true] at hr
    cases hr

/-- The filter `q => q.trim()` keeps the lines that have a character other than white space. -/
theorem questionTexts_eq_filter (content : String) :
    questionTexts content =
      (splitLines content).filter (fun line => line.data.any (fun c => !isJsWhiteSpace c)) := by
  unfold questionTexts
  apply List.filter_congr
  intro line _
  rw [Bool.eq_iff_iff, truthy_trim_iff]
  simp

/-- C10 (counterexample): the content is split at line feeds only, so for a file with CRLF line
endings every text keeps the carriage return of its line: `"Q1\r\nQ2\r\n"` gives the texts
`"Q1\r"` and `"Q2\r"`, not `"Q1"` and `"Q2"`. In the second run the question type is changed
between the selection of the file and the completion of its load: the options follow the type
captured at selection (`['', '']` under `fillup`), not the type of the draft. -/
theorem onload_keeps_carriage_return :
    (run initialWorld
        [Event.selectFileUpload,
          Event.fileChange (some { name := "questions.txt", content := "Q1\r\nQ2\r\n" }),
          Event.fileLoaded 0]).map (fun w => w.form.questions) =
      some [{ text := "Q1\r", options := none }, { text := "Q2\r", options := none }] ∧
    (run initialWorld
        [Event.questionTypeChange "multiple_choice", Event.selectFileUpload,
          Event.fileChange (some { name := "questions.txt", content := "Q1\nQ2\n\n" }),
          Event.questionTypeChange "fillup", Event.fileLoaded 0]).map
      (fun w => (w.form.formData.question_type, w.form.questions)) =
      some ("fillup",
        [{ text := "Q1", options := some ["", ""] }, { text := "Q2", options := some ["", ""] }]) := by
  decide

/-- C10 (amended): for a selected `.txt` file whose content has a piece with a character other
than white space, whenever the load completes (on any state `t`), `onload` sets `questions` to
one entry per such piece of `content.split('\n')`, in file order, with that piece as text, and
sets `num_questions` to the decimal numeral of the number of those pieces. The pieces are cut at
line feeds only: they contain no line feed and joined by line feeds give the content back, so
any other character of a line, a carriage return included, stays in the text. When the question
type at load time is the one in force when the file was selected (as it is when the load
follows the selection at once, which does not change the type), every entry has `['', '']` as
options under multiple choice and `null` otherwise. -/
theorem onload_imports_nonblank_lines (s t : FormState) (f : File) (r : Reader)
    (hr : (handleFileChange s (some f)).2 = some r)
    (hline : ∃ line ∈ splitLines f.content, ∃ c ∈ line.data, isJsWhiteSpace c = false) :
    List.intercalate ['\n'] ((splitLines f.content).map String.data) = f.content.data ∧
    (∀ line ∈ splitLines f.content, '\n' ∉ line.data) ∧
    questionTexts f.content =
      (splitLines f.content).filter (fun line => line.data.any (fun c => !isJsWhiteSpace c)) ∧
    (onload r t).questions.map Question.text = questionTexts f.content ∧
    (onload r t).questions.length = (questionTexts f.content).length ∧
    (onload r t).formData.num_questions = toString (questionTexts f.content).length ∧
    parseInt (onload r t).formData.num_questions = some ((questionTexts f.content).length : Int) ∧
    (t.formData.question_type = s.formData.question_type →
      ∀ q ∈ (onload r t).questions,
        q.options =
          if (onload r t).formData.question_type = "multiple_choice" then some ["", ""]
          else none) ∧
    (handleFileChange s (some f)).1.formData.question_type = s.formData.question_type := by
  obtain ⟨hreader, hform⟩ := handleFileChange_reader s f r hr
  have hne : (questionTexts f.content).length ≠ 0 := by
    obtain ⟨line, hmem, c, hc, hws⟩ := hline
    have hin : line ∈ questionTexts f.content := by
      unfold questionTexts
      rw [List.mem_filter]
      exact ⟨hmem, (truthy_trim_iff line).mpr ⟨c, hc, hws⟩⟩
    intro h0
    rw [List.length_eq_zero] at h0
    rw [h0] at hin
    simp at hin
  have hload : onload r t =
      { t with
        formData := { t.formData with num_questions := toString (questionTexts f.content).length }
        questions := (questionTexts f.content).map (newQuestion s.formData.question_type) } := by
    unfold onload
    rw [hreader]
    simp only [hne, if_false]
  refine ⟨?_, ?_, questionTexts_eq_filter _, ?_, ?_, ?_, ?_, ?_, ?_⟩
  · have : (splitLines f.content).map String.data = splitLineChars f.content.data := by
      unfold splitLines
      rw [List.map_map]
      exact List.map_id _
    rw [this]
    exact intercalate_splitLineChars _
  · intro line hmem
    unfold splitLines at hmem
    rw [List.mem_map] at hmem
    obtain ⟨l, hl, rfl⟩ := hmem
    exact splitLineChars_no_newline _ l hl
  · rw [hload]
    simp only [List.map_map]
    exact List.map_id _
  · rw [hload]
    simp
  · rw [hload]
  · rw [hload]
    exact parseInt_toString _
  · intro htype q hq
    rw [hload] at hq ⊢
    simp only [List.mem_map] at hq
    obtain ⟨line, _, rfl⟩ := hq
    show (newQuestion s.formData.question_type line).options =
      if t.formData.question_type = "multiple_choice" then some ["", ""] else none
    rw [htype]
    rfl
  · rw [hform]

/-- C10 (witness): the content `"Q1\nQ2\n\n"` gives exactly the two questions `Q1` and `Q2` and
the count `"2"`. -/
theorem onload_imports_nonblank_lines_witness :
    (onload { question_type := "fillup", result := "Q1\nQ2\n\n" }
        (handleFileChange { initialState with useFileUpload := true }
          (some { name := "questions.txt", content := "Q1\nQ2\n\n" })).1).questions =
      [{ text := "Q1", options := none }, { text := "Q2", options := none }] ∧
    (onload { question_type := "fillup", result := "Q1\nQ2\n\n" }
        (handleFileChange { initialState with useFileUpload := true }
          (some { name := "questions.txt", content := "Q1\nQ2\n\n" })).1).formData.num_questions =
      "2" ∧
    (onload { question_type := "fillup", result := "Q1\nQ2\n\n" }
        (handleFileChange { initialState with useFileUpload := true }
          (some { name := "questions.txt", content := "Q1\nQ2\n\n" })).1).questions.map
        Question.text = questionTexts "Q1\nQ2\n\n" :=
  ⟨by decide, by decide,
    (onload_imports_nonblank_lines { initialState with useFileUpload := true }
      (handleFileChange { initialState with useFileUpload := true }
        (some { name := "questions.txt", content := "Q1\nQ2\n\n" })).1
      { name := "questions.txt", content := "Q1\nQ2\n\n" }
      { question_type := "fillup", result := "Q1\nQ2\n\n" }
      (by decide) ⟨"Q1", by decide, 'Q', by decide, by decide⟩).2.2.2.1⟩

/-! ## C5: the count field and the question list -/

theorem countInSync_of_same (s s1 : FormState)
    (h1 : s1.formData.num_questions = s.formData.num_questions)
    (h2 : s1.questions.length = s.questions.length) (h : CountInSync s) : CountInSync s1 := by
  intro n hp hl hu
  rw [h1] at hp
  rw [h2]
  exact h n hp hl hu

theorem countInSync_of_cleared (s1 : FormState) (h1 : s1.formData.num_questions = "") :
    CountInSync s1 := by
  intro n hp _ _
  have hnone : parseInt "" = none := by decide
  rw [h1, hnone] at hp
  cases hp

theorem countInSync_handleInputChange (s : FormState) (name : InputName) (value : String)
    (h : CountInSync s) : CountInSync (handleInputChange s name value) := by
  refine countInSync_of_same s _ ?_ rfl h
  cases name <;> rfl

theorem countInSync_handleNumQuestionsChange (s : FormState) (value : String) :
    CountInSync (handleNumQuestionsChange s value).state := by
  intro n hp hl hu
  have hnum : (handleNumQuestionsChange s value).state.formData.num_questions = value := by
    unfold handleNumQuestionsChange
    repeat' split
    all_goals rfl
  rw [hnum] at hp
  rw [handleNumQuestionsChange_eq_of_valid s value n hp hl hu]
  simp only [Outcome.ok, List.length_replicate]
  omega

theorem countInSync_handleQuestionChange (s : FormState) (index : Nat) (field : Field)
    (value : String) (h : CountInSync s) :
    CountInSync (handleQuestionChange s index field value).state := by
  refine countInSync_of_same s _ ?_ ?_ h
  · unfold handleQuestionChange
    repeat' split
    all_goals rfl
  · unfold handleQuestionChange
    repeat' split
    all_goals simp [Outcome.ok, Outcome.throw]

theorem countInSync_addOption (s : FormState) (i : Nat) (h : CountInSync s) :
    CountInSync (addOption s i).state := by
  refine countInSync_of_same s _ ?_ ?_ h
  · unfold addOption
    repeat' split
    all_goals rfl
  · unfold addOption
    repeat' split
    all_goals simp [Outcome.ok, Outcome.throw]

theorem countInSync_removeOption (s : FormState) (i j : Nat) (h : CountInSync s) :
    CountInSync (removeOption s i j).state := by
  refine countInSync_of_same s _ ?_ ?_ h
  · unfold removeOption
    repeat' split
    all_goals rfl
  · unfold removeOption
    repeat' split
    all_goals simp [Outcome.ok, Outcome.throw]

theorem countInSync_handleFileChange (s : FormState) (file : Option File) (h : CountInSync s) :
    CountInSync (handleFileChange s file).1 := by
  cases file with
  | none => exact countInSync_of_cleared _ rfl
  | some f =>
    refine countInSync_of_same s _ ?_ ?_ h
    · unfold handleFileChange
      simp only
      split <;> rfl
    · unfold handleFileChange
      simp only
      split <;> rfl

theorem countInSync_onload (r : Reader) (s : FormState) (h : CountInSync s) :
    CountInSync (onload r s) := by
  unfold onload
  by_cases h0 : (questionTexts r.result).length = 0
  · rw [if_pos h0]
    exact countInSync_of_same s _ rfl rfl h
  · rw [if_neg h0]
    intro n hp _ _
    simp only [parseInt_toString, Option.some.injEq] at hp
    simp only [List.length_map]
    exact hp

/-- A submit attempt writes only the `errors` and `loading` cells. -/
theorem handleSubmit_frame (s : FormState) :
    (handleSubmit s).1.state =
      { s with
        errors := (handleSubmit s).1.state.errors
        loading := (handleSubmit s).1.state.loading } := by
  unfold handleSubmit validateForm
  cases validationErrors s with
  | error e => rfl
  | ok newErrors =>
    simp only
    cases newErrors.isEmpty <;> rfl

theorem countInSync_handleSubmit (s : FormState) (h : CountInSync s) :
    CountInSync (handleSubmit s).1.state := by
  rw [handleSubmit_frame]
  exact countInSync_of_same s _ rfl rfl h

/-- Every event keeps the count field and the question list in agreement, whether or not the
page offers the event. -/
theorem countInSync_applyEvent (w : World) (e : Event) (h : CountInSync w.form) :
    CountInSync (applyEvent w e).form := by
  cases e with
  | inputChange name value => exact countInSync_handleInputChange _ _ _ h
  | questionTypeChange value => exact countInSync_of_cleared _ rfl
  | numQuestionsChange value => exact countInSync_handleNumQuestionsChange _ _
  | questionChange index field value => exact countInSync_handleQuestionChange _ _ _ _ h
  | addOption i => exact countInSync_addOption _ _ h
  | removeOption i j => exact countInSync_removeOption _ _ _ h
  | selectManual => exact countInSync_of_cleared _ rfl
  | selectFileUpload => exact countInSync_of_same w.form _ rfl rfl h
  | fileChange file => exact countInSync_handleFileChange _ _ h
  | fileLoaded reader =>
    simp only [applyEvent]
    split
    · exact countInSync_onload _ _ h
    · exact h
  | togglePreview => exact countInSync_of_same w.form _ rfl rfl h
  | submit => exact countInSync_handleSubmit _ h
  | createResolved request id => exact countInSync_of_same w.form _ rfl rfl h
  | createRejected request detail => exact countInSync_of_same w.form _ rfl rfl h
  | cancel => exact h

theorem countInSync_run (events : List Event) :
    ∀ w0 w : World, CountInSync w0.form → run w0 events = some w → CountInSync w.form := by
  induction events with
  | nil =>
    intro w0 w h hrun
    simp only [run, Option.some.injEq] at hrun
    rw [← hrun]
    exact h
  | cons e rest ih =>
    intro w0 w h hrun
    unfold run step at hrun
    by_cases he : enabled w0 e = true
    · simp only [he, if_true] at hrun
      exact ih _ w (countInSync_applyEvent w0 e h) hrun
    · simp only [he] at hrun
      cases hrun

/-- C5 (counterexample): typing the count `4294967296` stores it in `num_questions`, where it
parses as a positive integer, while `Array.from` raises and `questions` stays empty. -/
theorem count_beyond_array_limit_drifts :
    (run initialWorld [Event.numQuestionsChange "4294967296"]).map
        (fun w => (parseInt w.form.formData.num_questions, w.form.questions.length)) =
      some (some 4294967296, 0) := by
  decide

/-- C5 (amended): in every reachable state, whenever `num_questions` parses as an integer `n`
with `1 ≤ n ≤ 2 ^ 32 - 1`, `questions` has exactly `n` entries. -/
theorem reachable_count_in_sync (w : World) (hw : Reachable w) (n : Int)
    (hp : parseInt w.form.formData.num_questions = some n) (h1 : 1 ≤ n) (h2 : n ≤ 4294967295) :
    (w.form.questions.length : Int) = n := by
  obtain ⟨events, hrun⟩ := hw
  have h0 : CountInSync initialWorld.form := countInSync_of_cleared _ rfl
  exact countInSync_run events initialWorld w h0 hrun n hp h1 h2

/-- C5 (witness): after typing the count `2`. -/
theorem reachable_count_in_sync_witness :
    Reachable (applyEvent initialWorld (Event.numQuestionsChange "2")) ∧
    parseInt (applyEvent initialWorld (Event.numQuestionsChange "2")).form.formData.num_questions =
      some 2 ∧
    ((applyEvent initialWorld (Event.numQuestionsChange "2")).form.questions.length : Int) = 2 :=
  ⟨⟨[Event.numQuestionsChange "2"], by decide⟩, by decide,
    reachable_count_in_sync (applyEvent initialWorld (Event.numQuestionsChange "2"))
      ⟨[Event.numQuestionsChange "2"], by decide⟩ 2 (by decide) (by decide) (by decide)⟩

/-! ## C11: a file without a usable line -/

/-- C11: for a selected `.txt` file none of whose lines has a character other than white space
(the empty file included), whenever the load completes (on any state `t`) `onload` puts the error
`File must contain at least one question.` on the file field, detaches the file and leaves file
mode, and does not touch `questions` or `formData` (so `num_questions` keeps its value); the
selection itself did not touch them either, so they equal their values in the state `s` before
the import when the load follows at once. -/
theorem onload_blank_file (s t : FormState) (f : File) (r : Reader)
    (hr : (handleFileChange s (some f)).2 = some r)
    (hblank : ∀ line ∈ splitLines f.content, ∀ c ∈ line.data, isJsWhiteSpace c = true) :
    getKey "questions_file" (onload r t).errors = some "File must contain at least one question." ∧
    errorShown "questions_file" (onload r t).errors = true ∧
    (onload r t).questions = t.questions ∧
    (onload r t).formData = t.formData ∧
    (onload r t).questionsFile = none ∧
    (onload r t).useFileUpload = false ∧
    (onload r (handleFileChange s (some f)).1).questions = s.questions ∧
    (onload r (handleFileChange s (some f)).1).formData.num_questions = s.formData.num_questions := by
  obtain ⟨hreader, hform⟩ := handleFileChange_reader s f r hr
  have hnil : questionTexts f.content = [] := by
    unfold questionTexts
    rw [List.filter_eq_nil_iff]
    intro line hmem htr
    obtain ⟨c, hc, hws⟩ := (truthy_trim_iff line).mp htr
    rw [hblank line hmem c hc] at hws
    cases hws
  have hload : ∀ u : FormState, onload r u =
      { u with
        errors := setKey "questions_file" "File must contain at least one question." u.errors
        questionsFile := none
        useFileUpload := false } := by
    intro u
    unfold onload
    rw [hreader]
    simp only [hnil, List.length_nil, if_true]
  have hsel : (handleFileChange s (some f)).1.questions = s.questions := by
    unfold handleFileChange
    simp only
    split <;> rfl
  refine ⟨?_, ?_, ?_, ?_, ?_, ?_, ?_, ?_⟩
  · rw [hload]
    exact getKey_setKey_self _ _ _
  · rw [hload]
    simp only [errorShown, getKey_setKey_self]
    decide
  · rw [hload]
  · rw [hload]
  · rw [hload]
  · rw [hload]
  · rw [hload]
    exact hsel
  · rw [hload]
    show (handleFileChange s (some f)).1.formData.num_questions = s.formData.num_questions
    rw [hform]

/-- C11 (witness): the content `"   \n  "` on a form that already holds two questions. -/
theorem onload_blank_file_witness :
    (onload { question_type := "fillup", result := "   \n  " }
        (handleFileChange
          { initialState with
            useFileUpload := true
            formData := { initialState.formData with num_questions := "2" }
            questions := [{ text := "A", options := none }, { text := "B", options := none }] }
          (some { name := "empty.txt", content := "   \n  " })).1).questions =
      [{ text := "A", options := none }, { text := "B", options := none }] ∧
    getKey "questions_file"
        (onload { question_type := "fillup", result := "   \n  " } initialState).errors =
      some "File must contain at least one question." :=
  ⟨(onload_blank_file
      { initialState with
        useFileUpload := true
        formData := { initialState.formData with num_questions := "2" }
        questions := [{ text := "A", options := none }, { text := "B", options := none }] }
      initialState { name := "empty.txt", content := "   \n  " }
      { question_type := "fillup", result := "   \n  " } (by decide) (by decide)).2.2.2.2.2.2.1,
    by decide⟩

/-! ## C12 and C13: changing the question type, going back to manual input -/

/-- C12: whatever the prior state and the value chosen, the `question_type` select handler
leaves `questions` empty, `num_questions` empty, no file attached and manual input selected,
sets `question_type` to the chosen value and keeps `title` and `recipient_email`. -/
theorem question_type_onChange_spec (s : FormState) (value : String) :
    (question_type_onChange s value).questions = [] ∧
    (question_type_onChange s value).formData.num_questions = "" ∧
    (question_type_onChange s value).questionsFile = none ∧
    (question_type_onChange s value).useFileUpload = false ∧
    (question_type_onChange s value).formData.question_type = value ∧
    (question_type_onChange s value).formData.title = s.formData.title ∧
    (question_type_onChange s value).formData.recipient_email = s.formData.recipient_email :=
  ⟨rfl, rfl, rfl, rfl, rfl, rfl, rfl⟩

/-- C13: whatever the prior state, the `manual_input` radio handler leaves `questions` empty,
`num_questions` empty, no file attached and manual input selected, and keeps `title`,
`recipient_email` and `question_type`. -/
theorem manual_input_onChange_spec (s : FormState) :
    (manual_input_onChange s).questions = [] ∧
    (manual_input_onChange s).formData.num_questions = "" ∧
    (manual_input_onChange s).questionsFile = none ∧
    (manual_input_onChange s).useFileUpload = false ∧
    (manual_input_onChange s).formData.title = s.formData.title ∧
    (manual_input_onChange s).formData.recipient_email = s.formData.recipient_email ∧
    (manual_input_onChange s).formData.question_type = s.formData.question_type :=
  ⟨rfl, rfl, rfl, rfl, rfl, rfl, rfl⟩

/-! ## C18, C19 and C20: the submit attempt -/

/-- The outcome of `handleSubmit` when `validateForm` returns the mapping `m`. -/
theorem handleSubmit_of_errors (s : FormState) (m : Errors)
    (hm : validationErrors s = Except.ok m) :
    handleSubmit s =
      if m.isEmpty then
        (Outcome.ok { s with errors := m, loading := true }, some (createCall s))
      else (Outcome.ok { s with errors := m }, none) := by
  unfold handleSubmit validateForm
  rw [hm]
  simp only
  cases m.isEmpty <;> rfl

/-- C18: a submit attempt starts a `createSurvey` call exactly when `validateForm` returns the
empty mapping. When the mapping `m` is not empty, no call is started, the only state cell
written is `errors`, which becomes `m` itself, and on the page nothing is added to the calls,
the outstanding requests or the notifications, and no navigation happens. -/
theorem handleSubmit_calls_iff_valid (s : FormState) :
    ((handleSubmit s).2.isSome = true ↔ validationErrors s = Except.ok []) ∧
    (∀ m : Errors, validationErrors s = Except.ok m → m ≠ [] →
      handleSubmit s = (Outcome.ok { s with errors := m }, none)) ∧
    (∀ w : World, w.form = s → validationErrors s ≠ Except.ok [] →
      (applyEvent w Event.submit).calls = w.calls ∧
      (applyEvent w Event.submit).requests = w.requests ∧
      (applyEvent w Event.submit).notifications = w.notifications ∧
      (applyEvent w Event.submit).navigated = w.navigated) := by
  have hiff : (handleSubmit s).2.isSome = true ↔ validationErrors s = Except.ok [] := by
    cases hv : validationErrors s with
    | error e =>
      have : handleSubmit s = (Outcome.throw e s, none) := by
        unfold handleSubmit validateForm
        rw [hv]
        rfl
      rw [this]
      simp
    | ok m =>
      rw [handleSubmit_of_errors s m hv]
      cases m with
      | nil => simp
      | cons p rest => simp
  refine ⟨hiff, ?_, ?_⟩
  · intro m hm hne
    rw [handleSubmit_of_errors s m hm]
    cases m with
    | nil => exact absurd rfl hne
    | cons p rest => rfl
  · intro w hw hinv
    have hnone : (handleSubmit w.form).2 = none := by
      rw [hw]
      cases h : (handleSubmit s).2 with
      | none => rfl
      | some c =>
        have : (handleSubmit s).2.isSome = true := by rw [h]; rfl
        exact absurd (hiff.mp this) hinv
    refine ⟨?_, ?_, rfl, rfl⟩
    · show w.calls ++ (handleSubmit w.form).2.toList = w.calls
      rw [hnone]
      simp
    · show w.requests ++ (handleSubmit w.form).2.toList = w.requests
      rw [hnone]
      simp

/-- C18 (witness): the empty form; the three errors replace the stale entry of an earlier
attempt and no call is made. -/
theorem handleSubmit_calls_iff_valid_witness :
    handleSubmit { initialState with errors := [("question_0", "Question 1 text is required")] } =
      (Outcome.ok
        { initialState with
          errors :=
            [("title", "Survey title is required"),
              ("num_questions", "Please specify the number of questions (at least 1)"),
              ("recipient_email", "Recipient email is required")] }, none) :=
  (handleSubmit_calls_iff_valid
      { initialState with errors := [("question_0", "Question 1 text is required")] }).2.1
    [("title", "Survey title is required"),
      ("num_questions", "Please specify the number of questions (at least 1)"),
      ("recipient_email", "Recipient email is required")] (by decide) (by decide)

/-- C19: on a page in manual mode whose form passes validation, a submit adds exactly one
`createSurvey` call, without the multipart flag, whose data is the object with `title`,
`question_type`, `questions` and `recipient_email` of the current state, and sets `loading`;
when that call resolves with id `id`, the success notification is raised and the page
navigates to `/surveys/` followed by `id`. -/
theorem submit_manual_draft (w : World) (hmode : w.form.useFileUpload = false)
    (hvalid : validationErrors w.form = Except.ok []) :
    (applyEvent w Event.submit).calls =
      w.calls ++
        [{ data := Payload.json w.form.formData.title w.form.formData.question_type
              w.form.questions w.form.formData.recipient_email
           isFileUpload := false }] ∧
    (applyEvent w Event.submit).requests =
      w.requests ++
        [{ data := Payload.json w.form.formData.title w.form.formData.question_type
              w.form.questions w.form.formData.recipient_email
           isFileUpload := false }] ∧
    (applyEvent w Event.submit).form.loading = true ∧
    ∀ id : String,
      (applyEvent (applyEvent w Event.submit)
          (Event.createResolved w.requests.length id)).notifications =
        w.notifications ++ [{ type := "success", message := "Survey created successfully!" }] ∧
      (applyEvent (applyEvent w Event.submit)
          (Event.createResolved w.requests.length id)).navigated = some ("/surveys/" ++ id) ∧
      (applyEvent (applyEvent w Event.submit)
          (Event.createResolved w.requests.length id)).requests = w.requests := by
  have hsub : handleSubmit w.form =
      (Outcome.ok { w.form with errors := [], loading := true }, some (createCall w.form)) := by
    rw [handleSubmit_of_errors w.form [] hvalid]
    rfl
  have hcall : createCall w.form =
      { data := Payload.json w.form.formData.title w.form.formData.question_type
          w.form.questions w.form.formData.recipient_email
        isFileUpload := false } := by
    unfold createCall
    rw [hmode]
  have hreq : (applyEvent w Event.submit).requests = w.requests ++ [createCall w.form] := by
    show w.requests ++ (handleSubmit w.form).2.toList = _
    rw [hsub]
    rfl
  refine ⟨?_, ?_, ?_, ?_⟩
  · show w.calls ++ (handleSubmit w.form).2.toList = _
    rw [hsub, ← hcall]
    rfl
  · rw [hreq, hcall]
  · show (handleSubmit w.form).1.state.loading = true
    rw [hsub]
    rfl
  · intro id
    refine ⟨rfl, rfl, ?_⟩
    show (applyEvent w Event.submit).requests.eraseIdx w.requests.length = w.requests
    rw [hreq]
    simp [List.eraseIdx_append_of_length_le]

/-- C19 (witness): the form filled in by the test; it is submitted as the object the test
expects and the page ends on `/surveys/1`. -/
theorem submit_manual_draft_witness :
    (applyEvent { initialWorld with form := filledTestForm } Event.submit).calls =
      [{ data := Payload.json "Test Survey" "multiple_choice"
            [{ text := "Favorite Color?", options := some ["Red", "Green"] }] "test@example.com"
         isFileUpload := false }] ∧
    (applyEvent (applyEvent { initialWorld with form := filledTestForm } Event.submit)
        (Event.createResolved 0 "1")).navigated = some "/surveys/1" :=
  ⟨(submit_manual_draft { initialWorld with form := filledTestForm } (by decide) (by decide)).1,
    by decide⟩

/-- Property assignment never yields the empty object. -/
theorem setKey_ne_nil (k v : String) (m : Errors) : setKey k v m ≠ [] := by
  cases m with
  | nil => simp [setKey]
  | cons p rest =>
    obtain ⟨k0, v0⟩ := p
    unfold setKey
    split <;> simp

theorem validateOptionTexts_ne_nil (index : Nat) (options : List String) :
    ∀ (optIndex : Nat) (acc : Errors), acc ≠ [] →
      validateOptionTexts index optIndex options acc ≠ [] := by
  induction options with
  | nil => intro optIndex acc h; exact h
  | cons option rest ih =>
    intro optIndex acc h
    unfold validateOptionTexts
    apply ih
    split
    · exact setKey_ne_nil _ _ _
    · exact h

theorem validateQuestion_ne_nil (question_type : String) (index : Nat) (q : Question)
    (acc m : Errors) (h : acc ≠ [])
    (hm : validateQuestion question_type index q acc = Except.ok m) : m ≠ [] := by
  have hchecked : (if !truthy (trim q.text) then
      setKey (questionKey index) ("Question " ++ toString (index + 1) ++ " text is required") acc
      else acc) ≠ [] := by
    split
    · exact setKey_ne_nil _ _ _
    · exact h
  unfold validateQuestion at hm
  simp only at hm
  split at hm
  · split at hm
    · cases hm
    · injection hm with hm
      rw [← hm]
      unfold validateOptions
      simp only
      split
      · exact setKey_ne_nil _ _ _
      · exact validateOptionTexts_ne_nil _ _ _ _ hchecked
  · injection hm with hm
    rw [← hm]
    exact hchecked

theorem validateQuestions_ne_nil (question_type : String) (qs : List Question) :
    ∀ (index : Nat) (acc m : Errors), acc ≠ [] →
      validateQuestions question_type index qs acc = Except.ok m → m ≠ [] := by
  induction qs with
  | nil =>
    intro index acc m h hm
    unfold validateQuestions at hm
    injection hm with hm
    rw [← hm]
    exact h
  | cons q rest ih =>
    intro index acc m h hm
    unfold validateQuestions at hm
    split at hm
    · cases hm
    · rename_i checked hq
      exact ih (index + 1) checked m (validateQuestion_ne_nil _ _ _ _ _ h hq) hm

/-- A form in file mode that passes validation has a file attached (the rule of line 126). -/
theorem file_attached_of_valid (s : FormState) (hvalid : validationErrors s = Except.ok [])
    (hmode : s.useFileUpload = true) : ∃ file, s.questionsFile = some file := by
  cases hf : s.questionsFile with
  | some file => exact ⟨file, rfl⟩
  | none =>
    exfalso
    have hne : validateFields s ≠ [] := by
      unfold validateFields
      simp only [hmode, hf, Option.isNone_none, Bool.and_self, if_true]
      exact setKey_ne_nil _ _ _
    exact validateQuestions_ne_nil _ _ _ _ _ hne hvalid rfl

/-- C20: a form that passes validation is submitted with the multipart flag exactly when it is
in file mode. In file mode the data is the `FormData` with `title`, `recipient_email`, the
attached file and `question_type`, and its `questions` part (the text and options of every
question, in order) is present exactly under multiple choice; in manual mode the data is the
plain object. -/
theorem submit_multipart_iff_file_mode (s : FormState)
    (hvalid : validationErrors s = Except.ok []) :
    (handleSubmit s).2 = some (createCall s) ∧
    ((createCall s).isFileUpload = true ↔ s.useFileUpload = true) ∧
    (s.useFileUpload = true →
      ∃ file, s.questionsFile = some file ∧
        (createCall s).data =
          Payload.multipart s.formData.title s.formData.recipient_email file
            s.formData.question_type
            (if s.formData.question_type = "multiple_choice" then some s.questions else none)) ∧
    (s.useFileUpload = false →
      (createCall s).data =
        Payload.json s.formData.title s.formData.question_type s.questions
          s.formData.recipient_email) := by
  have hmap : s.questions.map (fun q => ({ text := q.text, options := q.options } : Question)) =
      s.questions := by
    have : (fun q : Question => ({ text := q.text, options := q.options } : Question)) = id := by
      funext q
      rfl
    rw [this, List.map_id]
  refine ⟨?_, ?_, ?_, ?_⟩
  · rw [handleSubmit_of_errors s [] hvalid]
    rfl
  · constructor
    · intro h
      unfold createCall at h
      split at h
      · assumption
      · cases h
    · intro h
      obtain ⟨file, hfile⟩ := file_attached_of_valid s hvalid h
      unfold createCall
      rw [h, hfile]
  · intro h
    obtain ⟨file, hfile⟩ := file_attached_of_valid s hvalid h
    refine ⟨file, hfile, ?_⟩
    unfold createCall
    rw [h, hfile, hmap]
  · intro h
    unfold createCall
    rw [h]

/-- C20 (witness): the imported test form is sent as multipart data with its questions part,
the manually filled one as a plain object. -/
theorem submit_multipart_iff_file_mode_witness :
    (handleSubmit importedTestForm).2 =
      some
        { data :=
            Payload.multipart "Test Survey" "test@example.com"
              { name := "questions.txt", content := "Favorite Color?" } "multiple_choice"
              (some [{ text := "Favorite Color?", options := some ["Red", "Green"] }])
          isFileUpload := true } ∧
    (createCall filledTestForm).isFileUpload = false :=
  ⟨(submit_multipart_iff_file_mode importedTestForm (by decide)).1.trans (by decide), by decide⟩

/-! ## The keys of the error object -/

theorem toString_nat_injective (a b : Nat) (h : toString a = toString b) : a = b := by
  have ha := (toString_digits a).2.2
  have hb := (toString_digits b).2.2
  rw [h] at ha
  omega

theorem underscore_not_in_toString (n : Nat) : '_' ∉ (toString n).data := by
  intro h
  have := (toString_digits n).2.1 '_' h
  exact absurd this (by decide)

theorem questionKey_data (i : Nat) :
    (questionKey i).data = "question_".data ++ (toString i).data := by
  simp [questionKey, String.data_append]

theorem optionKey_data (i j : Nat) :
    (optionKey i j).data = "option_".data ++ ((toString i).data ++ '_' :: (toString j).data) := by
  simp [optionKey, String.data_append]

theorem duplicateKey_data (i : Nat) :
    (duplicateKey i).data = "options_duplicate_".data ++ (toString i).data := by
  simp [duplicateKey, String.data_append]

theorem questionKey_injective (i j : Nat) (h : questionKey i = questionKey j) : i = j := by
  have h1 := congrArg String.data h
  rw [questionKey_data, questionKey_data] at h1
  have h2 := List.append_cancel_left h1
  exact toString_nat_injective i j (String.ext h2)

theorem duplicateKey_injective (i j : Nat) (h : duplicateKey i = duplicateKey j) : i = j := by
  have h1 := congrArg String.data h
  rw [duplicateKey_data, duplicateKey_data] at h1
  have h2 := List.append_cancel_left h1
  exact toString_nat_injective i j (String.ext h2)

/-- Two lists that agree once a separator absent from their heads is inserted agree piecewise. -/
theorem split_at_separator (sep : Char) :
    ∀ a a1 b b1 : List Char, sep ∉ a → sep ∉ a1 → a ++ sep :: b = a1 ++ sep :: b1 →
      a = a1 ∧ b = b1 := by
  intro a
  induction a with
  | nil =>
    intro a1 b b1 _ h1 h
    cases a1 with
    | nil =>
      simp only [List.nil_append, List.cons.injEq, true_and] at h
      exact ⟨rfl, h⟩
    | cons x xs =>
      simp only [List.nil_append, List.cons_append, List.cons.injEq] at h
      exact absurd (h.1 ▸ List.mem_cons_self _ _) h1
  | cons y ys ih =>
    intro a1 b b1 h0 h1 h
    cases a1 with
    | nil =>
      simp only [List.nil_append, List.cons_append, List.cons.injEq] at h
      exact absurd (h.1 ▸ List.mem_cons_self _ _) h0
    | cons x xs =>
      simp only [List.cons_append, List.cons.injEq] at h
      have hys : sep ∉ ys := fun hm => h0 (List.mem_cons_of_mem _ hm)
      have hxs : sep ∉ xs := fun hm => h1 (List.mem_cons_of_mem _ hm)
      obtain ⟨e1, e2⟩ := ih xs b b1 hys hxs h.2
      exact ⟨by rw [h.1, e1], e2⟩

theorem optionKey_injective (i j i1 j1 : Nat) (h : optionKey i j = optionKey i1 j1) :
    i = i1 ∧ j = j1 := by
  have h1 := congrArg String.data h
  rw [optionKey_data, optionKey_data] at h1
  have h2 := List.append_cancel_left h1
  obtain ⟨e1, e2⟩ := split_at_separator '_' _ _ _ _ (underscore_not_in_toString i)
    (underscore_not_in_toString i1) h2
  exact ⟨toString_nat_injective i i1 (String.ext e1), toString_nat_injective j j1 (String.ext e2)⟩

theorem take_questionKey (i : Nat) : (questionKey i).data.take 9 = "question_".data := by
  rw [questionKey_data, List.take_append_of_le_length (by decide)]
  rfl

theorem take_optionKey (i j : Nat) : (optionKey i j).data.take 7 = "option_".data := by
  rw [optionKey_data, List.take_append_of_le_length (by decide)]
  rfl

theorem take_duplicateKey (i : Nat) : (duplicateKey i).data.take 7 = "options".data := by
  rw [duplicateKey_data, List.take_append_of_le_length (by decide)]
  rfl

theorem take_seven_questionKey (i : Nat) : (questionKey i).data.take 7 = "questio".data := by
  rw [questionKey_data, List.take_append_of_le_length (by decide)]
  rfl

theorem questionKey_ne_optionKey (i i1 j : Nat) : questionKey i ≠ optionKey i1 j := by
  intro h
  have h1 := congrArg (fun k => k.data.take 7) h
  simp only [take_seven_questionKey, take_optionKey] at h1
  exact absurd h1 (by decide)

theorem questionKey_ne_duplicateKey (i i1 : Nat) : questionKey i ≠ duplicateKey i1 := by
  intro h
  have h1 := congrArg (fun k => k.data.take 7) h
  simp only [take_seven_questionKey, take_duplicateKey] at h1
  exact absurd h1 (by decide)

theorem optionKey_ne_duplicateKey (i j i1 : Nat) : optionKey i j ≠ duplicateKey i1 := by
  intro h
  have h1 := congrArg (fun k => k.data.take 7) h
  simp only [take_optionKey, take_duplicateKey] at h1
  exact absurd h1 (by decide)

/-- The keys written for two different questions are different. -/
theorem loopKey_index_unique (i i1 : Nat) (k : String) (h : LoopKey i k) (h1 : LoopKey i1 k) :
    i = i1 := by
  rcases h with h | ⟨j, h⟩ | h <;> rcases h1 with h1 | ⟨j1, h1⟩ | h1
  · exact questionKey_injective _ _ (h.symm.trans h1)
  · exact absurd (h.symm.trans h1) (questionKey_ne_optionKey _ _ _)
  · exact absurd (h.symm.trans h1) (questionKey_ne_duplicateKey _ _)
  · exact absurd (h1.symm.trans h) (questionKey_ne_optionKey _ _ _)
  · exact (optionKey_injective _ _ _ _ (h.symm.trans h1)).1
  · exact absurd (h.symm.trans h1) (optionKey_ne_duplicateKey _ _ _)
  · exact absurd (h1.symm.trans h) (questionKey_ne_duplicateKey _ _)
  · exact absurd (h1.symm.trans h) (optionKey_ne_duplicateKey _ _ _)
  · exact duplicateKey_injective _ _ (h.symm.trans h1)

/-- None of the four keys of the top-level rules is written by the loop over the questions. -/
theorem fieldKey_not_loopKey (k : String)
    (hk : k = "title" ∨ k = "num_questions" ∨ k = "recipient_email" ∨ k = "questions_file")
    (i : Nat) : ¬ LoopKey i k := by
  intro h
  rcases h with h | ⟨j, h⟩ | h
  · have h1 : k.data.take 9 = "question_".data := by rw [h]; exact take_questionKey i
    rcases hk with rfl | rfl | rfl | rfl <;> exact absurd h1 (by decide)
  · have h1 : k.data.take 7 = "option_".data := by rw [h]; exact take_optionKey i j
    rcases hk with rfl | rfl | rfl | rfl <;> exact absurd h1 (by decide)
  · have h1 : k.data.take 7 = "options".data := by rw [h]; exact take_duplicateKey i
    rcases hk with rfl | rfl | rfl | rfl <;> exact absurd h1 (by decide)

/-! ## What each step of `validateForm` writes -/

theorem getKey_setKey_of_ne (k k0 v : String) (m : Errors) (h : k ≠ k0) :
    getKey k (setKey k0 v m) = getKey k m := by
  rw [getKey_setKey, if_neg h]

/-- A conditional assignment to another key is not seen when reading `k`. -/
theorem getKey_ite_setKey_of_ne (c : Bool) (k k0 v : String) (m : Errors) (h : k ≠ k0) :
    getKey k (if c = true then setKey k0 v m else m) = getKey k m := by
  cases c
  · rfl
  · simp only [if_true]
    exact getKey_setKey_of_ne k k0 v m h

/-- Reading the key of a conditional assignment. -/
theorem getKey_ite_setKey_self (c : Bool) (k v : String) (m : Errors) :
    getKey k (if c = true then setKey k v m else m) = if c = true then some v else getKey k m := by
  cases c
  · rfl
  · simp only [if_true]
    exact getKey_setKey_self k v m

/-- The per-option loop writes only the option keys of the options it visits. -/
theorem validateOptionTexts_frame (index : Nat) (k : String) (options : List String) :
    ∀ (start : Nat) (acc : Errors),
      (∀ j, j < options.length → k ≠ optionKey index (start + j)) →
      getKey k (validateOptionTexts index start options acc) = getKey k acc := by
  induction options with
  | nil => intro start acc _; rfl
  | cons option rest ih =>
    intro start acc h
    unfold validateOptionTexts
    rw [ih (start + 1)]
    · exact getKey_ite_setKey_of_ne _ _ _ _ _ (h 0 (by simp))
    · intro j hj
      have := h (j + 1) (by simp; omega)
      rwa [show start + (j + 1) = start + 1 + j by omega] at this

/-- The entry the per-option loop leaves under the key of the option at position `j`. -/
theorem validateOptionTexts_option (index : Nat) (options : List String) :
    ∀ (start : Nat) (acc : Errors) (j : Nat) (opt : String), options[j]? = some opt →
      getKey (optionKey index (start + j)) (validateOptionTexts index start options acc) =
        if (!truthy (trim opt)) = true then
          some ("Option " ++ toString (start + j + 1) ++ " for Question " ++ toString (index + 1) ++
            " is required")
        else getKey (optionKey index (start + j)) acc := by
  induction options with
  | nil => intro start acc j opt h; simp at h
  | cons option rest ih =>
    intro start acc j opt h
    unfold validateOptionTexts
    cases j with
    | zero =>
      simp only [List.getElem?_cons_zero, Option.some.injEq] at h
      rw [validateOptionTexts_frame]
      · rw [h]
        exact getKey_ite_setKey_self _ _ _ _
      · intro j _ hEq
        have := (optionKey_injective _ _ _ _ hEq).2
        omega
    | succ j =>
      simp only [List.getElem?_cons_succ] at h
      have := ih (start + 1) (if (!truthy (trim option)) = true then
          setKey (optionKey index start)
            ("Option " ++ toString (start + 1) ++ " for Question " ++ toString (index + 1) ++
              " is required") acc
        else acc) j opt h
      rw [show start + (j + 1) = start + 1 + j by omega, this]
      have hne : optionKey index (start + 1 + j) ≠ optionKey index start := by
        intro hEq
        have := (optionKey_injective _ _ _ _ hEq).2
        omega
      rw [getKey_ite_setKey_of_ne _ _ _ _ _ hne]

theorem validateOptions_frame (index : Nat) (k : String) (options : List String) (acc : Errors)
    (h1 : ∀ j, j < options.length → k ≠ optionKey index j) (h2 : k ≠ duplicateKey index) :
    getKey k (validateOptions index options acc) = getKey k acc := by
  have hf : getKey k (validateOptionTexts index 0 options acc) = getKey k acc := by
    apply validateOptionTexts_frame
    intro j hj
    rw [Nat.zero_add]
    exact h1 j hj
  unfold validateOptions
  simp only
  split
  · rw [getKey_setKey_of_ne _ _ _ _ h2, hf]
  · exact hf

theorem validateOptions_option (index : Nat) (options : List String) (acc : Errors) (j : Nat)
    (opt : String) (h : options[j]? = some opt) :
    getKey (optionKey index j) (validateOptions index options acc) =
      if (!truthy (trim opt)) = true then
        some ("Option " ++ toString (j + 1) ++ " for Question " ++ toString (index + 1) ++
          " is required")
      else getKey (optionKey index j) acc := by
  have hf := validateOptionTexts_option index options 0 acc j opt h
  simp only [Nat.zero_add] at hf
  unfold validateOptions
  simp only
  split
  · rw [getKey_setKey_of_ne _ _ _ _ (optionKey_ne_duplicateKey _ _ _), hf]
  · exact hf

theorem validateOptions_duplicate (index : Nat) (options : List String) (acc : Errors) :
    getKey (duplicateKey index) (validateOptions index options acc) =
      if (options.map trim).dedup.length ≠ (options.map trim).length then
        some ("Options for Question " ++ toString (index + 1) ++ " must be unique")
      else getKey (duplicateKey index) acc := by
  unfold validateOptions
  simp only
  split
  · exact getKey_setKey_self _ _ _
  · apply validateOptionTexts_frame
    intro j _ hEq
    exact optionKey_ne_duplicateKey _ _ _ hEq.symm

/-- The value `validateQuestion` returns, case by case. -/
theorem validateQuestion_eq (question_type : String) (index : Nat) (q : Question) (acc : Errors) :
    validateQuestion question_type index q acc =
      if question_type = "multiple_choice" then
        match q.options with
        | none => Except.error JsError.typeError
        | some options =>
          Except.ok (validateOptions index options
            (if (!truthy (trim q.text)) = true then
              setKey (questionKey index)
                ("Question " ++ toString (index + 1) ++ " text is required") acc
            else acc))
      else
        Except.ok
          (if (!truthy (trim q.text)) = true then
            setKey (questionKey index)
              ("Question " ++ toString (index + 1) ++ " text is required") acc
          else acc) := by
  rfl

/-- The body of the loop for the question at `index` writes only keys of that question. -/
theorem validateQuestion_frame (question_type : String) (index : Nat) (q : Question)
    (acc m : Errors) (k : String)
    (hm : validateQuestion question_type index q acc = Except.ok m) (hk : ¬ LoopKey index k) :
    getKey k m = getKey k acc := by
  have h1 : k ≠ questionKey index := fun h => hk (Or.inl h)
  have h2 : ∀ j, k ≠ optionKey index j := fun j h => hk (Or.inr (Or.inl ⟨j, h⟩))
  have h3 : k ≠ duplicateKey index := fun h => hk (Or.inr (Or.inr h))
  rw [validateQuestion_eq] at hm
  split at hm
  · split at hm
    · cases hm
    · injection hm with hm
      rw [← hm, validateOptions_frame _ _ _ _ (fun j _ => h2 j) h3]
      exact getKey_ite_setKey_of_ne _ _ _ _ _ h1
  · injection hm with hm
    rw [← hm]
    exact getKey_ite_setKey_of_ne _ _ _ _ _ h1

/-- The entry left under the text key of the question. -/
theorem validateQuestion_text (question_type : String) (index : Nat) (q : Question)
    (acc m : Errors) (hm : validateQuestion question_type index q acc = Except.ok m) :
    getKey (questionKey index) m =
      if (!truthy (trim q.text)) = true then
        some ("Question " ++ toString (index + 1) ++ " text is required")
      else getKey (questionKey index) acc := by
  rw [validateQuestion_eq] at hm
  split at hm
  · split at hm
    · cases hm
    · injection hm with hm
      rw [← hm, validateOptions_frame _ _ _ _ (fun j _ => questionKey_ne_optionKey _ _ _)
        (questionKey_ne_duplicateKey _ _)]
      exact getKey_ite_setKey_self _ _ _ _
  · injection hm with hm
    rw [← hm]
    exact getKey_ite_setKey_self _ _ _ _

/-- Under multiple choice, the entry left under the key of the option at position `j`. -/
theorem validateQuestion_option (index : Nat) (q : Question) (acc m : Errors)
    (options : List String) (j : Nat) (opt : String)
    (hm : validateQuestion "multiple_choice" index q acc = Except.ok m)
    (ho : q.options = some options) (hj : options[j]? = some opt) :
    getKey (optionKey index j) m =
      if (!truthy (trim opt)) = true then
        some ("Option " ++ toString (j + 1) ++ " for Question " ++ toString (index + 1) ++
          " is required")
      else getKey (optionKey index j) acc := by
  rw [validateQuestion_eq, if_pos rfl, ho] at hm
  injection hm with hm
  rw [← hm, validateOptions_option _ _ _ _ _ hj]
  rw [getKey_ite_setKey_of_ne _ _ _ _ _ (Ne.symm (questionKey_ne_optionKey _ _ _))]

/-- No option key is written past the last option, nor for any type but multiple choice. -/
theorem validateQuestion_no_option (question_type : String) (index : Nat) (q : Question)
    (acc m : Errors) (j : Nat)
    (hm : validateQuestion question_type index q acc = Except.ok m)
    (hj : question_type = "multiple_choice" → ∀ options, q.options = some options →
      options.length ≤ j) :
    getKey (optionKey index j) m = getKey (optionKey index j) acc := by
  rw [validateQuestion_eq] at hm
  split at hm
  · rename_i ht
    split at hm
    · cases hm
    · rename_i options ho
      injection hm with hm
      have hlen := hj ht options ho
      rw [← hm, validateOptions_frame _ _ _ _ _ (optionKey_ne_duplicateKey _ _ _)]
      · exact getKey_ite_setKey_of_ne _ _ _ _ _ (Ne.symm (questionKey_ne_optionKey _ _ _))
      · intro j1 hj1 hEq
        have := (optionKey_injective _ _ _ _ hEq).2
        omega
  · injection hm with hm
    rw [← hm]
    exact getKey_ite_setKey_of_ne _ _ _ _ _ (Ne.symm (questionKey_ne_optionKey _ _ _))

/-- Under multiple choice, the entry left under the duplicate key of the question. -/
theorem validateQuestion_duplicate (index : Nat) (q : Question) (acc m : Errors)
    (options : List String)
    (hm : validateQuestion "multiple_choice" index q acc = Except.ok m)
    (ho : q.options = some options) :
    getKey (duplicateKey index) m =
      if (options.map trim).dedup.length ≠ (options.map trim).length then
        some ("Options for Question " ++ toString (index + 1) ++ " must be unique")
      else getKey (duplicateKey index) acc := by
  rw [validateQuestion_eq, if_pos rfl, ho] at hm
  injection hm with hm
  rw [← hm, validateOptions_duplicate]
  rw [getKey_ite_setKey_of_ne _ _ _ _ _ (Ne.symm (questionKey_ne_duplicateKey _ _))]

/-- For a type other than multiple choice no duplicate key is written. -/
theorem validateQuestion_no_duplicate (question_type : String) (index : Nat) (q : Question)
    (acc m : Errors) (ht : question_type ≠ "multiple_choice")
    (hm : validateQuestion question_type index q acc = Except.ok m) :
    getKey (duplicateKey index) m = getKey (duplicateKey index) acc := by
  rw [validateQuestion_eq, if_neg ht] at hm
  injection hm with hm
  rw [← hm]
  exact getKey_ite_setKey_of_ne _ _ _ _ _ (Ne.symm (questionKey_ne_duplicateKey _ _))

/-- The loop over the questions writes only keys of the questions it visits. -/
theorem validateQuestions_frame (question_type : String) (k : String) (qs : List Question) :
    ∀ (index : Nat) (acc m : Errors),
      validateQuestions question_type index qs acc = Except.ok m →
      (∀ i, i < qs.length → ¬ LoopKey (index + i) k) → getKey k m = getKey k acc := by
  induction qs with
  | nil =>
    intro index acc m hm _
    unfold validateQuestions at hm
    injection hm with hm
    rw [hm]
  | cons q rest ih =>
    intro index acc m hm hk
    unfold validateQuestions at hm
    split at hm
    · cases hm
    · rename_i checked hq
      rw [ih (index + 1) checked m hm]
      · exact validateQuestion_frame _ _ _ _ _ _ hq (hk 0 (by simp))
      · intro i hi
        have := hk (i + 1) (by simp; omega)
        rwa [show index + (i + 1) = index + 1 + i by omega] at this

/-- The keys of the question at position `i` are decided by the body of the loop for that
question alone: the final object agrees on them with what that one call returns, and the object
the call starts from agrees on them with the object the loop started from. -/
theorem validateQuestions_at (question_type : String) (qs : List Question) :
    ∀ (index : Nat) (acc m : Errors) (i : Nat) (q : Question),
      validateQuestions question_type index qs acc = Except.ok m → qs[i]? = some q →
      ∃ a1 m1, validateQuestion question_type (index + i) q a1 = Except.ok m1 ∧
        ∀ k, LoopKey (index + i) k → getKey k a1 = getKey k acc ∧ getKey k m = getKey k m1 := by
  induction qs with
  | nil => intro index acc m i q _ h; simp at h
  | cons q0 rest ih =>
    intro index acc m i q hm hq
    unfold validateQuestions at hm
    split at hm
    · cases hm
    · rename_i checked hq0
      cases i with
      | zero =>
        simp only [List.getElem?_cons_zero, Option.some.injEq] at hq
        rw [← hq]
        refine ⟨acc, checked, hq0, ?_⟩
        intro k hk
        refine ⟨rfl, ?_⟩
        apply validateQuestions_frame _ _ _ _ _ _ hm
        intro i1 _ hk1
        have := loopKey_index_unique _ _ _ hk hk1
        omega
      | succ i =>
        simp only [List.getElem?_cons_succ] at hq
        obtain ⟨a1, m1, h1, h2⟩ := ih (index + 1) checked m i q hm hq
        rw [show index + 1 + i = index + (i + 1) by omega] at h1 h2
        refine ⟨a1, m1, h1, ?_⟩
        intro k hk
        obtain ⟨e1, e2⟩ := h2 k hk
        refine ⟨?_, e2⟩
        rw [e1]
        apply validateQuestion_frame _ _ _ _ _ _ hq0
        intro hk0
        have := loopKey_index_unique _ _ _ hk hk0
        omega

/-- The loop returns an object when every question has an options array under multiple
choice. -/
theorem validateQuestions_total (question_type : String) (qs : List Question)
    (h : question_type = "multiple_choice" → ∀ q ∈ qs, q.options ≠ none) :
    ∀ (index : Nat) (acc : Errors),
      ∃ m, validateQuestions question_type index qs acc = Except.ok m := by
  induction qs with
  | nil => intro index acc; exact ⟨acc, rfl⟩
  | cons q rest ih =>
    intro index acc
    have hrest : question_type = "multiple_choice" → ∀ q1 ∈ rest, q1.options ≠ none :=
      fun ht q1 hq1 => h ht q1 (List.mem_cons_of_mem _ hq1)
    have hq : ∃ checked, validateQuestion question_type index q acc = Except.ok checked := by
      rw [validateQuestion_eq]
      by_cases ht : question_type = "multiple_choice"
      · rw [if_pos ht]
        cases ho : q.options with
        | none => exact absurd ho (h ht q (List.mem_cons_self _ _))
        | some options => exact ⟨_, rfl⟩
      · rw [if_neg ht]
        exact ⟨_, rfl⟩
    obtain ⟨checked, hchecked⟩ := hq
    obtain ⟨m, hm⟩ := ih hrest (index + 1) checked
    refine ⟨m, ?_⟩
    unfold validateQuestions
    rw [hchecked]
    exact hm

/-! ## The rules on the top-level fields -/

/-- The title entry of the top-level rules. -/
theorem validateFields_title (s : FormState) :
    getKey "title" (validateFields s) =
      if truthy (trim s.formData.title) = true then none else some "Survey title is required" := by
  unfold validateFields
  simp only
  split_ifs <;> simp_all [getKey_setKey, getKey]

/-- The count entry of the top-level rules. -/
theorem validateFields_num_questions (s : FormState) :
    getKey "num_questions" (validateFields s) =
      if (!truthy s.formData.num_questions || parsesBelowOne s.formData.num_questions) = true then
        some "Please specify the number of questions (at least 1)"
      else none := by
  unfold validateFields
  simp only
  split_ifs <;> simp_all [getKey_setKey, getKey]

/-- The e-mail entry of the top-level rules. -/
theorem validateFields_recipient_email (s : FormState) :
    getKey "recipient_email" (validateFields s) =
      if truthy (trim s.formData.recipient_email) = true then
        if emailRegexTest s.formData.recipient_email = true then none
        else some "Please enter a valid email address"
      else some "Recipient email is required" := by
  unfold validateFields
  simp only
  split_ifs <;> simp_all [getKey_setKey, getKey]

/-- The file entry of the top-level rules. -/
theorem validateFields_questions_file (s : FormState) :
    getKey "questions_file" (validateFields s) =
      if (s.useFileUpload && s.questionsFile.isNone) = true then
        some "Please upload a questions file."
      else none := by
  unfold validateFields
  simp only
  split_ifs <;> simp_all [getKey_setKey, getKey]

/-- The top-level rules write no other key than their four. -/
theorem validateFields_other (s : FormState) (k : String) (h1 : k ≠ "title")
    (h2 : k ≠ "num_questions") (h3 : k ≠ "recipient_email") (h4 : k ≠ "questions_file") :
    getKey k (validateFields s) = none := by
  have g1 : ¬ "title" = k := fun h => h1 h.symm
  have g2 : ¬ "num_questions" = k := fun h => h2 h.symm
  have g3 : ¬ "recipient_email" = k := fun h => h3 h.symm
  have g4 : ¬ "questions_file" = k := fun h => h4 h.symm
  unfold validateFields
  simp only
  split_ifs <;> simp_all [getKey_setKey, getKey]

/-- The top-level rules write no key of the loop over the questions. -/
theorem validateFields_loopKey (s : FormState) (i : Nat) (k : String) (hk : LoopKey i k) :
    getKey k (validateFields s) = none := by
  apply validateFields_other
  · intro h; exact fieldKey_not_loopKey k (Or.inl h) i hk
  · intro h; exact fieldKey_not_loopKey k (Or.inr (Or.inl h)) i hk
  · intro h; exact fieldKey_not_loopKey k (Or.inr (Or.inr (Or.inl h))) i hk
  · intro h; exact fieldKey_not_loopKey k (Or.inr (Or.inr (Or.inr h))) i hk

/-- The loop over the questions leaves the entries of the top-level rules as they are. -/
theorem validationErrors_field (s : FormState) (m : Errors) (k : String)
    (hm : validationErrors s = Except.ok m)
    (hk : k = "title" ∨ k = "num_questions" ∨ k = "recipient_email" ∨ k = "questions_file") :
    getKey k m = getKey k (validateFields s) :=
  validateQuestions_frame _ k _ 0 _ m hm (fun _ _ => fieldKey_not_loopKey k hk _)

/-- Validation returns an object on every draft of the data model. -/
theorem validationErrors_total (s : FormState) (h : HasOptions s) :
    ∃ m, validationErrors s = Except.ok m :=
  validateQuestions_total _ _ h 0 _

/-! ## C14: the top-level rules do not short-circuit -/

theorem truthy_eq_false_iff (x : String) : truthy x = false ↔ x = "" := by
  unfold truthy
  constructor
  · intro h
    apply String.ext
    simpa using h
  · intro h
    rw [h]
    rfl

/-- C14: on every draft of the data model `validateForm` returns a mapping in which the title
entry is `Survey title is required` exactly when the trimmed title is empty and is absent
otherwise, and in which the title, count and e-mail entries are each a function of their own
field alone: two drafts that agree on one of these fields get the same entry for it, whatever
the rest holds. On the empty form the mapping is exactly the title, count and e-mail errors. -/
theorem validationErrors_fields_independent (s s1 : FormState) (h : HasOptions s)
    (h1 : HasOptions s1) :
    ∃ m m1, validationErrors s = Except.ok m ∧ validationErrors s1 = Except.ok m1 ∧
      (getKey "title" m = some "Survey title is required" ↔ trim s.formData.title = "") ∧
      (getKey "title" m = none ↔ trim s.formData.title ≠ "") ∧
      (s.formData.title = s1.formData.title → getKey "title" m = getKey "title" m1) ∧
      (s.formData.recipient_email = s1.formData.recipient_email →
        getKey "recipient_email" m = getKey "recipient_email" m1) ∧
      (s.formData.num_questions = s1.formData.num_questions →
        getKey "num_questions" m = getKey "num_questions" m1) ∧
      validationErrors initialState =
        Except.ok
          [("title", "Survey title is required"),
            ("num_questions", "Please specify the number of questions (at least 1)"),
            ("recipient_email", "Recipient email is required")] := by
  obtain ⟨m, hm⟩ := validationErrors_total s h
  obtain ⟨m1, hm1⟩ := validationErrors_total s1 h1
  have ht := (validationErrors_field s m "title" hm (Or.inl rfl)).trans (validateFields_title s)
  have ht1 := (validationErrors_field s1 m1 "title" hm1 (Or.inl rfl)).trans
    (validateFields_title s1)
  have hn := (validationErrors_field s m "num_questions" hm (Or.inr (Or.inl rfl))).trans
    (validateFields_num_questions s)
  have hn1 := (validationErrors_field s1 m1 "num_questions" hm1 (Or.inr (Or.inl rfl))).trans
    (validateFields_num_questions s1)
  have he := (validationErrors_field s m "recipient_email" hm (Or.inr (Or.inr (Or.inl rfl)))).trans
    (validateFields_recipient_email s)
  have he1 := (validationErrors_field s1 m1 "recipient_email" hm1
    (Or.inr (Or.inr (Or.inl rfl)))).trans (validateFields_recipient_email s1)
  refine ⟨m, m1, hm, hm1, ?_, ?_, ?_, ?_, ?_, by decide⟩
  · rw [ht, ← truthy_eq_false_iff]
    cases truthy (trim s.formData.title) <;> simp
  · rw [ht, Ne, ← truthy_eq_false_iff]
    cases truthy (trim s.formData.title) <;> simp
  · intro e
    rw [ht, ht1, e]
  · intro e
    rw [he, he1, e]
  · intro e
    rw [hn, hn1, e]

/-- C14 (witness): a blank title is reported with or without the other fields filled in. -/
theorem validationErrors_fields_independent_witness :
    validationErrors { filledTestForm with formData := { filledTestForm.formData with title := "  " } } =
      Except.ok [("title", "Survey title is required")] ∧
    ∃ m m1,
      validationErrors { filledTestForm with formData := { filledTestForm.formData with title := "  " } } =
        Except.ok m ∧
      validationErrors { initialState with formData := { initialState.formData with title := "  " } } =
        Except.ok m1 ∧
      getKey "title" m = getKey "title" m1 := by
  obtain ⟨m, m1, hm, hm1, _, _, ht, _⟩ :=
    validationErrors_fields_independent
      { filledTestForm with formData := { filledTestForm.formData with title := "  " } }
      { initialState with formData := { initialState.formData with title := "  " } }
      (by intro _ q hq; simp [filledTestForm] at hq; rw [hq]; simp)
      (by intro _ q hq; simp [initialState] at hq)
  exact ⟨by decide, m, m1, hm, hm1, ht rfl⟩

/-! ## C16: the required-field entries of the questions -/

/-- No key of a question past the end of the list is written. -/
theorem validationErrors_past_end (s : FormState) (m : Errors) (i : Nat) (k : String)
    (hm : validationErrors s = Except.ok m) (hi : s.questions.length ≤ i) (hk : LoopKey i k) :
    getKey k m = none := by
  have hframe : getKey k m = getKey k (validateFields s) := by
    apply validateQuestions_frame _ k _ 0 _ m hm
    intro i1 hi1 hk1
    have := loopKey_index_unique _ _ _ hk hk1
    omega
  rw [hframe]
  exact validateFields_loopKey s i k hk

/-- The keys of the question at position `i` hold what the body of the loop writes for that
question on an object without them. -/
theorem validationErrors_at (s : FormState) (m : Errors) (i : Nat) (q : Question)
    (hm : validationErrors s = Except.ok m) (hq : s.questions[i]? = some q) :
    ∃ a1 m1, validateQuestion s.formData.question_type i q a1 = Except.ok m1 ∧
      ∀ k, LoopKey i k → getKey k a1 = none ∧ getKey k m = getKey k m1 := by
  obtain ⟨a1, m1, h1, h2⟩ := validateQuestions_at _ _ 0 _ m i q hm hq
  rw [Nat.zero_add] at h1 h2
  refine ⟨a1, m1, h1, ?_⟩
  intro k hk
  obtain ⟨e1, e2⟩ := h2 k hk
  exact ⟨e1.trans (validateFields_loopKey s i k hk), e2⟩

/-- C16: on every draft of the data model `validateForm` returns a mapping in which, for each
question `i`, the entry `Question {i+1} text is required` is present exactly when the trimmed
text is empty; under multiple choice, for each option `j` of question `i`, the entry
`Option {j+1} for Question {i+1} is required` is present exactly when the trimmed option is
empty; there is no entry for a question or an option that does not exist, and for any other
question type there is no option entry at all. -/
theorem validationErrors_required_entries (s : FormState) (h : HasOptions s) :
    ∃ m, validationErrors s = Except.ok m ∧
      (∀ i q, s.questions[i]? = some q →
        getKey (questionKey i) m =
          if trim q.text = "" then some ("Question " ++ toString (i + 1) ++ " text is required")
          else none) ∧
      (∀ i, s.questions.length ≤ i → getKey (questionKey i) m = none) ∧
      (s.formData.question_type = "multiple_choice" →
        ∀ i q options j opt, s.questions[i]? = some q → q.options = some options →
          options[j]? = some opt →
          getKey (optionKey i j) m =
            if trim opt = "" then
              some ("Option " ++ toString (j + 1) ++ " for Question " ++ toString (i + 1) ++
                " is required")
            else none) ∧
      (s.formData.question_type = "multiple_choice" →
        ∀ i q options j, s.questions[i]? = some q → q.options = some options →
          options.length ≤ j → getKey (optionKey i j) m = none) ∧
      (∀ i j, s.questions.length ≤ i → getKey (optionKey i j) m = none) ∧
      (s.formData.question_type ≠ "multiple_choice" → ∀ i j, getKey (optionKey i j) m = none) := by
  obtain ⟨m, hm⟩ := validationErrors_total s h
  have hblank : ∀ (x : String) (a b : Option String),
      (if (!truthy (trim x)) = true then a else b) = if trim x = "" then a else b := by
    intro x a b
    by_cases hx : trim x = ""
    · rw [if_pos hx, (truthy_eq_false_iff _).mpr hx]
      rfl
    · have : truthy (trim x) = true := by
        cases ht : truthy (trim x)
        · exact absurd ((truthy_eq_false_iff _).mp ht) hx
        · rfl
      rw [if_neg hx, this]
      rfl
  refine ⟨m, hm, ?_, ?_, ?_, ?_, ?_, ?_⟩
  · intro i q hq
    obtain ⟨a1, m1, h1, h2⟩ := validationErrors_at s m i q hm hq
    obtain ⟨e1, e2⟩ := h2 (questionKey i) (Or.inl rfl)
    rw [e2, validateQuestion_text _ _ _ _ _ h1, e1, hblank]
  · intro i hi
    exact validationErrors_past_end s m i _ hm hi (Or.inl rfl)
  · intro ht i q options j opt hq ho hj
    obtain ⟨a1, m1, h1, h2⟩ := validationErrors_at s m i q hm hq
    obtain ⟨e1, e2⟩ := h2 (optionKey i j) (Or.inr (Or.inl ⟨j, rfl⟩))
    rw [ht] at h1
    rw [e2, validateQuestion_option _ _ _ _ _ _ _ h1 ho hj, e1, hblank]
  · intro _ i q options j hq ho hj
    obtain ⟨a1, m1, h1, h2⟩ := validationErrors_at s m i q hm hq
    obtain ⟨e1, e2⟩ := h2 (optionKey i j) (Or.inr (Or.inl ⟨j, rfl⟩))
    rw [e2, validateQuestion_no_option _ _ _ _ _ _ h1, e1]
    intro _ options1 ho1
    rw [ho] at ho1
    injection ho1 with ho1
    rw [← ho1]
    exact hj
  · intro i j hi
    exact validationErrors_past_end s m i _ hm hi (Or.inr (Or.inl ⟨j, rfl⟩))
  · intro ht i j
    rcases Nat.lt_or_ge i s.questions.length with hi | hi
    · have hq : s.questions[i]? = some s.questions[i] := List.getElem?_eq_getElem hi
      obtain ⟨a1, m1, h1, h2⟩ := validationErrors_at s m i _ hm hq
      obtain ⟨e1, e2⟩ := h2 (optionKey i j) (Or.inr (Or.inl ⟨j, rfl⟩))
      rw [e2, validateQuestion_no_option _ _ _ _ _ _ h1, e1]
      intro ht1
      exact absurd ht1 ht
    · exact validationErrors_past_end s m i _ hm hi (Or.inr (Or.inl ⟨j, rfl⟩))

/-- C16 (witness): a multiple-choice form with a blank second question whose first option is
blank too. -/
theorem validationErrors_required_entries_witness :
    validationErrors
        { filledTestForm with
          questions :=
            [{ text := "Favorite Color?", options := some ["Red", "Green"] },
              { text := " ", options := some ["", "Blue"] }] } =
      Except.ok
        [("question_1", "Question 2 text is required"),
          ("option_1_0", "Option 1 for Question 2 is required")] ∧
    ∃ m,
      validationErrors
          { filledTestForm with
            questions :=
              [{ text := "Favorite Color?", options := some ["Red", "Green"] },
                { text := " ", options := some ["", "Blue"] }] } = Except.ok m ∧
      getKey (questionKey 2) m = none := by
  obtain ⟨m, hm, _, hpast, _⟩ :=
    validationErrors_required_entries
      { filledTestForm with
        questions :=
          [{ text := "Favorite Color?", options := some ["Red", "Green"] },
            { text := " ", options := some ["", "Blue"] }] }
      (by
        intro _ q hq
        simp only [List.mem_cons, List.mem_singleton, List.not_mem_nil, or_false] at hq
        rcases hq with rfl | rfl <;> simp)
  exact ⟨by decide, m, hm, hpast 2 (by decide)⟩

/-! ## C17: the duplicate-options entry -/

/-- The set of trimmed options is smaller than their list exactly when two options at different
positions are equal after trimming. -/
theorem dedup_length_ne_iff (options : List String) :
    (options.map trim).dedup.length ≠ (options.map trim).length ↔ HasRepeatedOption options := by
  have hnodup : (options.map trim).dedup.length = (options.map trim).length ↔
      (options.map trim).Nodup := by
    constructor
    · intro h
      exact List.dedup_eq_self.mp ((List.dedup_sublist _).eq_of_length h)
    · intro h
      rw [List.dedup_eq_self.mpr h]
  rw [Ne, hnodup, List.nodup_iff_getElem?_ne_getElem?]
  constructor
  · intro h
    simp only [not_forall] at h
    obtain ⟨j1, j2, hlt, hlen, heq⟩ := h
    simp only [ne_eq, not_not] at heq
    rw [List.length_map] at hlen
    rw [List.getElem?_map, List.getElem?_map, List.getElem?_eq_getElem hlen,
      List.getElem?_eq_getElem (Nat.lt_trans hlt hlen)] at heq
    simp only [Option.map_some', Option.some.injEq] at heq
    exact ⟨j1, j2, _, _, hlt, List.getElem?_eq_getElem _, List.getElem?_eq_getElem hlen, heq⟩
  · rintro ⟨j1, j2, o1, o2, hlt, h1, h2, heq⟩
    intro hall
    have hlen : j2 < (options.map trim).length := by
      rw [List.length_map]
      rcases Nat.lt_or_ge j2 options.length with hl | hl
      · exact hl
      · rw [List.getElem?_eq_none hl] at h2
        cases h2
    apply hall j1 j2 hlt hlen
    rw [List.getElem?_map, List.getElem?_map, h1, h2]
    simp [heq]

/-- The keys after a property assignment are the old keys and the assigned one. -/
theorem mem_keys_setKey (k v x : String) (m : Errors) :
    x ∈ (setKey k v m).map Prod.fst ↔ x = k ∨ x ∈ m.map Prod.fst := by
  induction m with
  | nil => simp [setKey]
  | cons p rest ih =>
    obtain ⟨k0, v0⟩ := p
    unfold setKey
    by_cases h : k0 = k
    · simp [h]
    · simp only [h, if_false, List.map_cons, List.mem_cons, ih]
      constructor
      · rintro (h1 | h1 | h1)
        · exact Or.inr (Or.inl h1)
        · exact Or.inl h1
        · exact Or.inr (Or.inr h1)
      · rintro (h1 | h1 | h1)
        · exact Or.inr (Or.inl h1)
        · exact Or.inl h1
        · exact Or.inr (Or.inr h1)

/-- A property assignment keeps the keys of the object distinct. -/
theorem nodup_keys_setKey (k v : String) (m : Errors) (h : (m.map Prod.fst).Nodup) :
    ((setKey k v m).map Prod.fst).Nodup := by
  induction m with
  | nil => simp [setKey]
  | cons p rest ih =>
    obtain ⟨k0, v0⟩ := p
    simp only [List.map_cons, List.nodup_cons] at h
    unfold setKey
    by_cases hk : k0 = k
    · simp only [hk, if_true, List.map_cons, List.nodup_cons]
      rw [← hk]
      exact h
    · simp only [hk, if_false, List.map_cons, List.nodup_cons]
      refine ⟨?_, ih h.2⟩
      rw [mem_keys_setKey]
      rintro (h1 | h1)
      · exact hk h1
      · exact h.1 h1

theorem nodup_keys_ite_setKey (c : Bool) (k v : String) (m : Errors)
    (h : (m.map Prod.fst).Nodup) :
    ((if c = true then setKey k v m else m).map Prod.fst).Nodup := by
  cases c
  · exact h
  · exact nodup_keys_setKey k v m h

theorem nodup_keys_validateFields (s : FormState) : ((validateFields s).map Prod.fst).Nodup := by
  unfold validateFields
  simp only
  have h0 : (([] : Errors).map Prod.fst).Nodup := List.nodup_nil
  have h1 := nodup_keys_ite_setKey (!truthy (trim s.formData.title)) "title"
    "Survey title is required" [] h0
  have h2 := nodup_keys_ite_setKey
    (!truthy s.formData.num_questions || parsesBelowOne s.formData.num_questions) "num_questions"
    "Please specify the number of questions (at least 1)" _ h1
  apply nodup_keys_ite_setKey
  split
  · exact nodup_keys_setKey _ _ _ h2
  · split
    · exact nodup_keys_setKey _ _ _ h2
    · exact h2

theorem nodup_keys_validateOptionTexts (index : Nat) (options : List String) :
    ∀ (start : Nat) (acc : Errors), (acc.map Prod.fst).Nodup →
      ((validateOptionTexts index start options acc).map Prod.fst).Nodup := by
  induction options with
  | nil => intro start acc h; exact h
  | cons option rest ih =>
    intro start acc h
    unfold validateOptionTexts
    exact ih _ _ (nodup_keys_ite_setKey _ _ _ _ h)

theorem nodup_keys_validateQuestion (question_type : String) (index : Nat) (q : Question)
    (acc m : Errors) (h : (acc.map Prod.fst).Nodup)
    (hm : validateQuestion question_type index q acc = Except.ok m) :
    (m.map Prod.fst).Nodup := by
  rw [validateQuestion_eq] at hm
  split at hm
  · split at hm
    · cases hm
    · rename_i options _
      injection hm with hm
      rw [← hm]
      unfold validateOptions
      simp only
      have := nodup_keys_validateOptionTexts index options 0 _
        (nodup_keys_ite_setKey (!truthy (trim q.text)) (questionKey index)
          ("Question " ++ toString (index + 1) ++ " text is required") acc h)
      split
      · exact nodup_keys_setKey _ _ _ this
      · exact this
  · injection hm with hm
    rw [← hm]
    exact nodup_keys_ite_setKey _ _ _ _ h

theorem nodup_keys_validateQuestions (question_type : String) (qs : List Question) :
    ∀ (index : Nat) (acc m : Errors), (acc.map Prod.fst).Nodup →
      validateQuestions question_type index qs acc = Except.ok m → (m.map Prod.fst).Nodup := by
  induction qs with
  | nil =>
    intro index acc m h hm
    unfold validateQuestions at hm
    injection hm with hm
    rw [← hm]
    exact h
  | cons q rest ih =>
    intro index acc m h hm
    unfold validateQuestions at hm
    split at hm
    · cases hm
    · rename_i checked hq
      exact ih _ _ _ (nodup_keys_validateQuestion _ _ _ _ _ h hq) hm

/-- An object with distinct keys has at most one entry under a given key. -/
theorem entries_under_key_le_one (k : String) (m : Errors) (h : (m.map Prod.fst).Nodup) :
    (m.filter (fun p => p.1 = k)).length ≤ 1 := by
  induction m with
  | nil => simp
  | cons p rest ih =>
    simp only [List.map_cons, List.nodup_cons] at h
    by_cases hp : p.1 = k
    · have hnone : rest.filter (fun p => p.1 = k) = [] := by
        rw [List.filter_eq_nil_iff]
        intro x hx hxk
        simp only [decide_eq_true_eq] at hxk
        apply h.1
        rw [hp, ← hxk]
        exact List.mem_map_of_mem _ hx
      simp [List.filter_cons, hp, hnone]
    · simp only [List.filter_cons, hp, decide_False, Bool.false_eq_true, if_false]
      exact ih h.2

/-- C17: on every multiple-choice draft of the data model `validateForm` returns a mapping in
which, for each question `i`, the entry `Options for Question {i+1} must be unique` is present
exactly when two options of the question at different positions are equal after trimming (the
empty string included), and is absent otherwise; the mapping holds at most one entry under that
key however many options repeat, and none for a question that does not exist. For the draft with
title `T`, e-mail `a@b.com` and the single question `Q` with options `Red`, `Red` (count `1`),
the mapping is exactly that one entry for question 1. -/
theorem validationErrors_duplicate_entries (s : FormState) (h : HasOptions s)
    (ht : s.formData.question_type = "multiple_choice") :
    ∃ m, validationErrors s = Except.ok m ∧
      (∀ i q options, s.questions[i]? = some q → q.options = some options →
        (getKey (duplicateKey i) m =
            some ("Options for Question " ++ toString (i + 1) ++ " must be unique") ↔
          HasRepeatedOption options) ∧
        (getKey (duplicateKey i) m = none ↔ ¬ HasRepeatedOption options)) ∧
      (∀ i, s.questions.length ≤ i → getKey (duplicateKey i) m = none) ∧
      (∀ i, (m.filter (fun p => p.1 = duplicateKey i)).length ≤ 1) ∧
      validationErrors
          { initialState with
            formData :=
              { title := "T", recipient_email := "a@b.com", question_type := "multiple_choice",
                num_questions := "1" }
            questions := [{ text := "Q", options := some ["Red", "Red"] }] } =
        Except.ok [("options_duplicate_0", "Options for Question 1 must be unique")] := by
  obtain ⟨m, hm⟩ := validationErrors_total s h
  refine ⟨m, hm, ?_, ?_, ?_, by decide⟩
  · intro i q options hq ho
    obtain ⟨a1, m1, h1, h2⟩ := validationErrors_at s m i q hm hq
    obtain ⟨e1, e2⟩ := h2 (duplicateKey i) (Or.inr (Or.inr rfl))
    rw [ht] at h1
    rw [e2, validateQuestion_duplicate _ _ _ _ _ h1 ho, e1, ← dedup_length_ne_iff]
    by_cases hd : (options.map trim).dedup.length ≠ (options.map trim).length
    · simp [hd]
    · simp [hd]
  · intro i hi
    exact validationErrors_past_end s m i _ hm hi (Or.inr (Or.inr rfl))
  · intro i
    apply entries_under_key_le_one
    exact nodup_keys_validateQuestions _ _ 0 _ m (nodup_keys_validateFields s) hm

/-- C17 (witness): three equal options give one entry; two blank options are reported as
required and as duplicates of each other. -/
theorem validationErrors_duplicate_entries_witness :
    validationErrors
        { filledTestForm with
          questions := [{ text := "Favorite Color?", options := some ["Red", " Red", "Red "] }] } =
      Except.ok [("options_duplicate_0", "Options for Question 1 must be unique")] ∧
    validationErrors
        { filledTestForm with
          questions := [{ text := "Favorite Color?", options := some ["", " "] }] } =
      Except.ok
        [("option_0_0", "Option 1 for Question 1 is required"),
          ("option_0_1", "Option 2 for Question 1 is required"),
          ("options_duplicate_0", "Options for Question 1 must be unique")] ∧
    ∃ m,
      validationErrors
          { filledTestForm with
            questions := [{ text := "Favorite Color?", options := some ["Red", " Red", "Red "] }] } =
        Except.ok m ∧
      (m.filter (fun p => p.1 = duplicateKey 0)).length ≤ 1 := by
  obtain ⟨m, hm, _, _, hone, _⟩ :=
    validationErrors_duplicate_entries
      { filledTestForm with
        questions := [{ text := "Favorite Color?", options := some ["Red", " Red", "Red "] }] }
      (by
        intro _ q hq
        simp only [List.mem_singleton] at hq
        rw [hq]
        simp)
      rfl
  exact ⟨by decide, by decide, m, hm, hone 0⟩

/-! ## C15: the e-mail rule -/

theorem dotThenMore_iff (cs : List Char) :
    hasInnerDot.dotThenMore cs = true ↔ ∃ b c : List Char, c ≠ [] ∧ cs = b ++ '.' :: c := by
  induction cs with
  | nil =>
    simp only [hasInnerDot.dotThenMore, Bool.false_eq_true, false_iff]
    rintro ⟨b, c, _, h⟩
    cases b <;> simp at h
  | cons x rest ih =>
    unfold hasInnerDot.dotThenMore
    rw [Bool.or_eq_true, Bool.and_eq_true, ih]
    constructor
    · rintro (⟨hx, hrest⟩ | ⟨b, c, hc, h⟩)
      · refine ⟨[], rest, ?_, ?_⟩
        · intro h
          rw [h] at hrest
          simp at hrest
        · have : x = '.' := by simpa using hx
          rw [this]
          rfl
      · exact ⟨x :: b, c, hc, by rw [h]; rfl⟩
    · rintro ⟨b, c, hc, h⟩
      cases b with
      | nil =>
        simp only [List.nil_append, List.cons.injEq] at h
        left
        refine ⟨by simp [h.1], ?_⟩
        rw [h.2]
        cases c with
        | nil => exact absurd rfl hc
        | cons y ys => rfl
      | cons y ys =>
        simp only [List.cons_append, List.cons.injEq] at h
        right
        exact ⟨ys, c, hc, h.2⟩

theorem hasInnerDot_iff (l : List Char) :
    hasInnerDot l = true ↔ ∃ b c : List Char, b ≠ [] ∧ c ≠ [] ∧ l = b ++ '.' :: c := by
  cases l with
  | nil =>
    simp only [hasInnerDot, Bool.false_eq_true, false_iff]
    rintro ⟨b, c, _, _, h⟩
    cases b <;> simp at h
  | cons x rest =>
    unfold hasInnerDot
    rw [dotThenMore_iff]
    constructor
    · rintro ⟨b, c, hc, h⟩
      exact ⟨x :: b, c, by simp, hc, by rw [h]; rfl⟩
    · rintro ⟨b, c, hb, hc, h⟩
      cases b with
      | nil => exact absurd rfl hb
      | cons y ys =>
        simp only [List.cons_append, List.cons.injEq] at h
        exact ⟨ys, c, hc, h.2⟩

theorem atThenTail_iff (cs : List Char) :
    emailRegexTest.atThenTail cs = true ↔
      ∃ a t : List Char, cs = a ++ '@' :: t ∧ hasInnerDot t = true := by
  induction cs with
  | nil =>
    simp only [emailRegexTest.atThenTail, Bool.false_eq_true, false_iff]
    rintro ⟨a, t, h, _⟩
    cases a <;> simp at h
  | cons x rest ih =>
    unfold emailRegexTest.atThenTail
    rw [Bool.or_eq_true, Bool.and_eq_true, ih]
    constructor
    · rintro (⟨hx, hrest⟩ | ⟨a, t, h, ht⟩)
      · refine ⟨[], rest, ?_, hrest⟩
        have : x = '@' := by simpa using hx
        rw [this]
        rfl
      · exact ⟨x :: a, t, by rw [h]; rfl, ht⟩
    · rintro ⟨a, t, h, ht⟩
      cases a with
      | nil =>
        simp only [List.nil_append, List.cons.injEq] at h
        left
        refine ⟨by simp [h.1], ?_⟩
        rw [h.2]
        exact ht
      | cons y ys =>
        simp only [List.cons_append, List.cons.injEq] at h
        right
        exact ⟨ys, t, h.2, ht⟩

theorem localThenAt_iff (l : List Char) :
    emailRegexTest.localThenAt l = true ↔
      ∃ a t : List Char, a ≠ [] ∧ l = a ++ '@' :: t ∧ hasInnerDot t = true := by
  cases l with
  | nil =>
    simp only [emailRegexTest.localThenAt, Bool.false_eq_true, false_iff]
    rintro ⟨a, t, _, h, _⟩
    cases a <;> simp at h
  | cons x rest =>
    unfold emailRegexTest.localThenAt
    rw [atThenTail_iff]
    constructor
    · rintro ⟨a, t, h, ht⟩
      exact ⟨x :: a, t, by simp, by rw [h]; rfl, ht⟩
    · rintro ⟨a, t, ha, h, ht⟩
      cases a with
      | nil => exact absurd rfl ha
      | cons y ys =>
        simp only [List.cons_append, List.cons.injEq] at h
        exact ⟨ys, t, h.2, ht⟩

/-- The regular-expression test accepts exactly the strings of the shape `local@domain.tld`. -/
theorem emailRegexTest_iff (s : String) : emailRegexTest s = true ↔ EmailShaped s := by
  unfold emailRegexTest EmailShaped
  rw [Bool.and_eq_true, List.all_eq_true, localThenAt_iff]
  constructor
  · rintro ⟨hws, a, t, ha, h, ht⟩
    obtain ⟨b, c, hb, hc, htail⟩ := (hasInnerDot_iff t).mp ht
    refine ⟨?_, a, b, c, ha, hb, hc, by rw [h, htail]⟩
    intro ch hch
    simpa using hws ch hch
  · rintro ⟨hws, a, b, c, ha, hb, hc, h⟩
    refine ⟨?_, a, b ++ '.' :: c, ha, h, (hasInnerDot_iff _).mpr ⟨b, c, hb, hc, rfl⟩⟩
    intro ch hch
    simpa using hws ch hch

/-- C15 (counterexample): a recipient that is not empty but consists of white space only (a
blank, or a no-break space, which an e-mail input does not strip) gets
`Recipient email is required`, not `Please enter a valid email address`. -/
theorem blank_recipient_reported_as_required :
    validationErrors
        { filledTestForm with formData := { filledTestForm.formData with recipient_email := " " } } =
      Except.ok [("recipient_email", "Recipient email is required")] ∧
    validationErrors
        { filledTestForm with
          formData := { filledTestForm.formData with recipient_email := "\u00a0" } } =
      Except.ok [("recipient_email", "Recipient email is required")] := by
  decide

/-- C15 (amended): on every draft of the data model `validateForm` returns a mapping whose
`recipient_email` entry is `Recipient email is required` when the recipient is empty after
trimming white space; otherwise `Please enter a valid email address` when the recipient is not
of the shape `local@domain.tld`; otherwise absent. The entry holds one message at most. -/
theorem validationErrors_recipient_email (s : FormState) (h : HasOptions s) :
    ∃ m, validationErrors s = Except.ok m ∧
      (trim s.formData.recipient_email = "" →
        getKey "recipient_email" m = some "Recipient email is required") ∧
      (trim s.formData.recipient_email ≠ "" → ¬ EmailShaped s.formData.recipient_email →
        getKey "recipient_email" m = some "Please enter a valid email address") ∧
      (trim s.formData.recipient_email ≠ "" → EmailShaped s.formData.recipient_email →
        getKey "recipient_email" m = none) ∧
      (m.filter (fun p => p.1 = "recipient_email")).length ≤ 1 := by
  obtain ⟨m, hm⟩ := validationErrors_total s h
  have he := (validationErrors_field s m "recipient_email" hm (Or.inr (Or.inr (Or.inl rfl)))).trans
    (validateFields_recipient_email s)
  refine ⟨m, hm, ?_, ?_, ?_, ?_⟩
  · intro hblank
    rw [he, (truthy_eq_false_iff _).mpr hblank]
    rfl
  · intro hne hshape
    have ht : truthy (trim s.formData.recipient_email) = true := by
      cases hx : truthy (trim s.formData.recipient_email)
      · exact absurd ((truthy_eq_false_iff _).mp hx) hne
      · rfl
    have hr : emailRegexTest s.formData.recipient_email = false := by
      cases hx : emailRegexTest s.formData.recipient_email
      · rfl
      · exact absurd ((emailRegexTest_iff _).mp hx) hshape
    rw [he, ht, hr]
    rfl
  · intro hne hshape
    have ht : truthy (trim s.formData.recipient_email) = true := by
      cases hx : truthy (trim s.formData.recipient_email)
      · exact absurd ((truthy_eq_false_iff _).mp hx) hne
      · rfl
    rw [he, ht, (emailRegexTest_iff _).mpr hshape]
    rfl
  · apply entries_under_key_le_one
    exact nodup_keys_validateQuestions _ _ 0 _ m (nodup_keys_validateFields s) hm

/-- C15 (witness): `test@example.com` has the shape and gets no entry; `test@example` does not
and gets the second message. -/
theorem validationErrors_recipient_email_witness :
    EmailShaped "test@example.com" ∧
    validationErrors filledTestForm = Except.ok [] ∧
    validationErrors
        { filledTestForm with
          formData := { filledTestForm.formData with recipient_email := "test@example" } } =
      Except.ok [("recipient_email", "Please enter a valid email address")] ∧
    ∃ m, validationErrors filledTestForm = Except.ok m ∧ getKey "recipient_email" m = none := by
  have hshape : EmailShaped "test@example.com" := (emailRegexTest_iff _).mp (by decide)
  obtain ⟨m, hm, _, _, hnone, _⟩ :=
    validationErrors_recipient_email filledTestForm
      (by
        intro _ q hq
        simp only [filledTestForm, List.mem_singleton] at hq
        rw [hq]
        simp)
  exact ⟨hshape, by decide, by decide, m, hm, hnone (by decide) hshape⟩

/-! ## C21 and C22: a failed `createSurvey` call -/

/-- C21: when a `createSurvey` call fails, the page raises exactly one notification, of type
`danger`, and does not navigate. Its message is the detail of the error response when there is
a non-empty one (`Server error` gives `Server error`), and the fallback
`Failed to create survey. Please try again.` when the response has no detail or an empty one. -/
theorem rejected_call_notifies_danger (w : World) (request : Nat) (detail : Option String) :
    (∃ message,
      (applyEvent w (Event.createRejected request detail)).notifications =
          w.notifications ++ [{ type := "danger", message := message }] ∧
        (∀ d, detail = some d → d ≠ "" → message = d) ∧
        (detail = none ∨ detail = some "" →
          message = "Failed to create survey. Please try again.")) ∧
    (applyEvent w (Event.createRejected request detail)).navigated = w.navigated ∧
    (applyEvent w (Event.createRejected request detail)).calls = w.calls ∧
    (onRejected (some "Server error")).notifications =
      [{ type := "danger", message := "Server error" }] := by
  refine ⟨⟨_, rfl, ?_, ?_⟩, rfl, rfl, by decide⟩
  · intro d hd hne
    rw [hd]
    have ht : truthy d = true := by
      cases hx : truthy d
      · exact absurd ((truthy_eq_false_iff d).mp hx) hne
      · rfl
    simp only [ht, if_true]
  · rintro (hd | hd) <;> rw [hd]
    rfl

/-- C21 (witness): the rejection of the test `handles API failure during submission`, and a
rejection without a response. -/
theorem rejected_call_notifies_danger_witness :
    (applyEvent (applyEvent { initialWorld with form := filledTestForm } Event.submit)
        (Event.createRejected 0 (some "Server error"))).notifications =
      [{ type := "danger", message := "Server error" }] ∧
    (applyEvent (applyEvent { initialWorld with form := filledTestForm } Event.submit)
        (Event.createRejected 0 none)).notifications =
      [{ type := "danger", message := "Failed to create survey. Please try again." }] ∧
    (applyEvent (applyEvent { initialWorld with form := filledTestForm } Event.submit)
        (Event.createRejected 0 (some "Server error"))).navigated = none :=
  ⟨by decide, by decide,
    (rejected_call_notifies_danger
      (applyEvent { initialWorld with form := filledTestForm } Event.submit) 0
      (some "Server error")).2.1⟩

/-- The rejection of a call writes only the `loading` cell of the form. -/
theorem rejected_call_frame (w : World) (request : Nat) (detail : Option String) :
    (applyEvent w (Event.createRejected request detail)).form = { w.form with loading := false } :=
  rfl

/-- C22: when a form that passes validation is submitted and the call fails, the form after the
failure is the form before the submit with `errors` empty and `loading` false: `title`,
`recipient_email`, `question_type`, `num_questions`, `questions`, the input mode and the
attached file are those of before the submit. The submit step itself writes only `errors` and
`loading`, and the rejection step only `loading`. -/
theorem failed_submit_keeps_draft (w : World) (detail : Option String)
    (hvalid : validationErrors w.form = Except.ok []) :
    (applyEvent (applyEvent w Event.submit)
        (Event.createRejected w.requests.length detail)).form =
      { w.form with errors := [], loading := false } ∧
    (applyEvent (applyEvent w Event.submit)
        (Event.createRejected w.requests.length detail)).form.formData = w.form.formData ∧
    (applyEvent (applyEvent w Event.submit)
        (Event.createRejected w.requests.length detail)).form.questions = w.form.questions ∧
    (applyEvent (applyEvent w Event.submit)
        (Event.createRejected w.requests.length detail)).form.useFileUpload =
      w.form.useFileUpload ∧
    (applyEvent (applyEvent w Event.submit)
        (Event.createRejected w.requests.length detail)).form.questionsFile =
      w.form.questionsFile ∧
    (applyEvent (applyEvent w Event.submit)
        (Event.createRejected w.requests.length detail)).form.loading = false ∧
    (applyEvent (applyEvent w Event.submit)
        (Event.createRejected w.requests.length detail)).requests = w.requests := by
  have hsub : handleSubmit w.form =
      (Outcome.ok { w.form with errors := [], loading := true }, some (createCall w.form)) := by
    rw [handleSubmit_of_errors w.form [] hvalid]
    rfl
  have hform : (applyEvent w Event.submit).form = { w.form with errors := [], loading := true } := by
    show (handleSubmit w.form).1.state = _
    rw [hsub]
    rfl
  have hreq : (applyEvent w Event.submit).requests = w.requests ++ [createCall w.form] := by
    show w.requests ++ (handleSubmit w.form).2.toList = _
    rw [hsub]
    rfl
  have hfinal : (applyEvent (applyEvent w Event.submit)
      (Event.createRejected w.requests.length detail)).form =
      { w.form with errors := [], loading := false } := by
    rw [rejected_call_frame, hform]
  refine ⟨hfinal, ?_, ?_, ?_, ?_, ?_, ?_⟩
  · rw [hfinal]
  · rw [hfinal]
  · rw [hfinal]
  · rw [hfinal]
  · rw [hfinal]
  · show (applyEvent w Event.submit).requests.eraseIdx w.requests.length = w.requests
    rw [hreq]
    simp [List.eraseIdx_append_of_length_le]

/-- C22 (witness): the filled test form after a failed submit. -/
theorem failed_submit_keeps_draft_witness :
    (applyEvent (applyEvent { initialWorld with form := filledTestForm } Event.submit)
        (Event.createRejected 0 (some "Server error"))).form =
      { filledTestForm with errors := [], loading := false } :=
  (failed_submit_keeps_draft { initialWorld with form := filledTestForm } (some "Server error")
    (by decide)).1

/-! ## C23: one outstanding call at a time -/

theorem loading_handleNumQuestionsChange (s : FormState) (value : String) :
    (handleNumQuestionsChange s value).state.loading = s.loading := by
  unfold handleNumQuestionsChange
  repeat' split
  all_goals rfl

theorem loading_handleQuestionChange (s : FormState) (index : Nat) (field : Field)
    (value : String) : (handleQuestionChange s index field value).state.loading = s.loading := by
  unfold handleQuestionChange
  repeat' split
  all_goals rfl

theorem loading_addOption (s : FormState) (i : Nat) : (addOption s i).state.loading = s.loading := by
  unfold addOption
  repeat' split
  all_goals rfl

theorem loading_removeOption (s : FormState) (i j : Nat) :
    (removeOption s i j).state.loading = s.loading := by
  unfold removeOption
  repeat' split
  all_goals rfl

theorem loading_handleFileChange (s : FormState) (file : Option File) :
    (handleFileChange s file).1.loading = s.loading := by
  unfold handleFileChange
  repeat' split
  all_goals rfl

theorem loading_onload (r : Reader) (s : FormState) : (onload r s).loading = s.loading := by
  unfold onload
  split <;> rfl

/-- A submit attempt either starts one call and sets `loading`, or starts none and leaves
`loading` as it was. -/
theorem handleSubmit_loading (s : FormState) :
    ((handleSubmit s).2 = some (createCall s) ∧ (handleSubmit s).1.state.loading = true) ∨
    ((handleSubmit s).2 = none ∧ (handleSubmit s).1.state.loading = s.loading) := by
  cases hv : validationErrors s with
  | error e =>
    right
    have : handleSubmit s = (Outcome.throw e s, none) := by
      unfold handleSubmit validateForm
      rw [hv]
      rfl
    rw [this]
    exact ⟨rfl, rfl⟩
  | ok m =>
    rw [handleSubmit_of_errors s m hv]
    cases m with
    | nil => left; exact ⟨rfl, rfl⟩
    | cons p rest => right; exact ⟨rfl, rfl⟩

/-- Every step the page offers keeps at most one call outstanding, with `loading` set exactly
while one is. -/
theorem oneRequest_step (w : World) (e : Event) (he : enabled w e = true) (h : OneRequest w) :
    OneRequest (applyEvent w e) := by
  have keep : ∀ w1 : World, w1.form.loading = w.form.loading → w1.requests = w.requests →
      OneRequest w1 := by
    intro w1 h1 h2
    unfold OneRequest
    rw [h1, h2]
    exact h
  cases e with
  | inputChange name value => exact keep _ rfl rfl
  | questionTypeChange value => exact keep _ rfl rfl
  | numQuestionsChange value => exact keep _ (loading_handleNumQuestionsChange _ _) rfl
  | questionChange index field value => exact keep _ (loading_handleQuestionChange _ _ _ _) rfl
  | addOption i => exact keep _ (loading_addOption _ _) rfl
  | removeOption i j => exact keep _ (loading_removeOption _ _ _) rfl
  | selectManual => exact keep _ rfl rfl
  | selectFileUpload => exact keep _ rfl rfl
  | fileChange file => exact keep _ (loading_handleFileChange _ _) rfl
  | fileLoaded reader =>
    simp only [applyEvent]
    split
    · exact keep _ (loading_onload _ _) rfl
    · exact h
  | togglePreview => exact keep _ rfl rfl
  | submit =>
    have hidle : w.form.loading = false := by
      simp only [enabled, Bool.and_eq_true, Bool.not_eq_true'] at he
      exact he.2
    have hnone : w.requests = [] := by
      rcases h with ⟨h1, _⟩ | ⟨_, h2⟩
      · rw [hidle] at h1
        cases h1
      · exact h2
    rcases handleSubmit_loading w.form with ⟨hc, hl⟩ | ⟨hc, hl⟩
    · left
      refine ⟨hl, ?_⟩
      show (w.requests ++ (handleSubmit w.form).2.toList).length = 1
      rw [hc, hnone]
      rfl
    · right
      refine ⟨hl.trans hidle, ?_⟩
      show w.requests ++ (handleSubmit w.form).2.toList = []
      rw [hc, hnone]
      rfl
  | createResolved request id =>
    have hk : request < w.requests.length := by
      simp only [enabled, Bool.and_eq_true, decide_eq_true_eq] at he
      exact he.2
    have hone : w.requests.length = 1 := by
      rcases h with ⟨_, h2⟩ | ⟨_, h2⟩
      · exact h2
      · rw [h2] at hk
        simp at hk
    right
    refine ⟨rfl, ?_⟩
    show w.requests.eraseIdx request = []
    rw [← List.length_eq_zero, List.length_eraseIdx, if_pos hk, hone]
  | createRejected request detail =>
    have hk : request < w.requests.length := by
      simp only [enabled, Bool.and_eq_true, decide_eq_true_eq] at he
      exact he.2
    have hone : w.requests.length = 1 := by
      rcases h with ⟨_, h2⟩ | ⟨_, h2⟩
      · exact h2
      · rw [h2] at hk
        simp at hk
    right
    refine ⟨rfl, ?_⟩
    show w.requests.eraseIdx request = []
    rw [← List.length_eq_zero, List.length_eraseIdx, if_pos hk, hone]
  | cancel => exact keep _ rfl rfl

theorem oneRequest_run (events : List Event) :
    ∀ w0 w : World, OneRequest w0 → run w0 events = some w → OneRequest w := by
  induction events with
  | nil =>
    intro w0 w h hrun
    simp only [run, Option.some.injEq] at hrun
    rw [← hrun]
    exact h
  | cons e rest ih =>
    intro w0 w h hrun
    unfold run step at hrun
    by_cases he : enabled w0 e = true
    · simp only [he, if_true] at hrun
      exact ih _ w (oneRequest_step w0 e he h) hrun
    · simp only [he] at hrun
      cases hrun

/-- C23: in every reachable state of the page at most one `createSurvey` call is outstanding,
and `loading` is true exactly while one is; while `loading` is true the page does not offer a
submit; a step that starts a call is taken with no call outstanding and leaves exactly one, with
`loading` set; and the step that settles the call, on success as on failure, clears `loading`
and leaves no call outstanding. -/
theorem reachable_one_request (w : World) (hw : Reachable w) :
    w.requests.length ≤ 1 ∧
    (w.form.loading = true ↔ w.requests ≠ []) ∧
    (w.form.loading = true → enabled w Event.submit = false) ∧
    (∀ e w1, step w e = some w1 → w1.calls ≠ w.calls →
      w.requests = [] ∧ w1.requests.length = 1 ∧ w1.form.loading = true) ∧
    (∀ request id w1, step w (Event.createResolved request id) = some w1 →
      w1.form.loading = false ∧ w1.requests = []) ∧
    (∀ request detail w1, step w (Event.createRejected request detail) = some w1 →
      w1.form.loading = false ∧ w1.requests = []) := by
  obtain ⟨events, hrun⟩ := hw
  have h0 : OneRequest initialWorld := Or.inr ⟨rfl, rfl⟩
  have h : OneRequest w := oneRequest_run events initialWorld w h0 hrun
  have hsettled : ∀ e w1, step w e = some w1 → OneRequest w1 := by
    intro e w1 hstep
    unfold step at hstep
    by_cases he : enabled w e = true
    · simp only [he, if_true, Option.some.injEq] at hstep
      rw [← hstep]
      exact oneRequest_step w e he h
    · simp only [he] at hstep
      cases hstep
  refine ⟨?_, ?_, ?_, ?_, ?_, ?_⟩
  · rcases h with ⟨_, h2⟩ | ⟨_, h2⟩
    · omega
    · rw [h2]
      simp
  · rcases h with ⟨h1, h2⟩ | ⟨h1, h2⟩
    · constructor
      · intro _ hnil
        rw [hnil] at h2
        simp at h2
      · intro _
        exact h1
    · constructor
      · intro hl
        rw [h1] at hl
        cases hl
      · intro hne
        exact absurd h2 hne
  · intro hl
    simp [enabled, hl]
  · intro e w1 hstep hcalls
    have hone := hsettled e w1 hstep
    unfold step at hstep
    by_cases he : enabled w e = true
    · simp only [he, if_true, Option.some.injEq] at hstep
      cases e with
      | submit =>
        have hidle : w.form.loading = false := by
          simp only [enabled, Bool.and_eq_true, Bool.not_eq_true'] at he
          exact he.2
        have hnone : w.requests = [] := by
          rcases h with ⟨h1, _⟩ | ⟨_, h2⟩
          · rw [hidle] at h1
            cases h1
          · exact h2
        have hstarted : (handleSubmit w.form).2 ≠ none := by
          intro hn
          apply hcalls
          rw [← hstep]
          show w.calls ++ (handleSubmit w.form).2.toList = w.calls
          rw [hn]
          simp
        rcases handleSubmit_loading w.form with ⟨hc, hl⟩ | ⟨hc, _⟩
        · refine ⟨hnone, ?_, ?_⟩
          · rw [← hstep]
            show (w.requests ++ (handleSubmit w.form).2.toList).length = 1
            rw [hc, hnone]
            rfl
          · rw [← hstep]
            exact hl
        · exact absurd hc hstarted
      | fileLoaded reader =>
        exfalso
        apply hcalls
        rw [← hstep]
        simp only [applyEvent]
        split <;> rfl
      | _ =>
        exfalso
        apply hcalls
        rw [← hstep]
        rfl
    · simp only [he] at hstep
      cases hstep
  · intro request id w1 hstep
    have hone := hsettled _ w1 hstep
    have hl : w1.form.loading = false := by
      unfold step at hstep
      split at hstep
      · injection hstep with hstep
        rw [← hstep]
        rfl
      · cases hstep
    rcases hone with ⟨h1, _⟩ | ⟨_, h2⟩
    · rw [hl] at h1
      cases h1
    · exact ⟨hl, h2⟩
  · intro request detail w1 hstep
    have hone := hsettled _ w1 hstep
    have hl : w1.form.loading = false := by
      unfold step at hstep
      split at hstep
      · injection hstep with hstep
        rw [← hstep]
        rfl
      · cases hstep
    rcases hone with ⟨h1, _⟩ | ⟨_, h2⟩
    · rw [hl] at h1
      cases h1
    · exact ⟨hl, h2⟩

/-- C23 (witness): after a valid form is filled in and submitted, one call is outstanding,
`loading` is set and the page offers no submit. -/
theorem reachable_one_request_witness :
    run initialWorld
        [Event.inputChange InputName.title "T", Event.inputChange InputName.recipient_email "a@b.com",
          Event.numQuestionsChange "1", Event.questionChange 0 Field.text "Q", Event.submit] =
      some
        { form :=
            { formData :=
                { title := "T", recipient_email := "a@b.com", question_type := "fillup",
                  num_questions := "1" }
              questions := [{ text := "Q", options := none }]
              useFileUpload := false
              questionsFile := none
              errors := []
              loading := true
              previewMode := false }
          readers := []
          requests :=
            [{ data := Payload.json "T" "fillup" [{ text := "Q", options := none }] "a@b.com"
               isFileUpload := false }]
          calls :=
            [{ data := Payload.json "T" "fillup" [{ text := "Q", options := none }] "a@b.com"
               isFileUpload := false }]
          notifications := []
          navigated := none } ∧
    enabled
        { form :=
            { formData :=
                { title := "T", recipient_email := "a@b.com", question_type := "fillup",
                  num_questions := "1" }
              questions := [{ text := "Q", options := none }]
              useFileUpload := false
              questionsFile := none
              errors := []
              loading := true
              previewMode := false }
          readers := []
          requests :=
            [{ data := Payload.json "T" "fillup" [{ text := "Q", options := none }] "a@b.com"
               isFileUpload := false }]
          calls :=
            [{ data := Payload.json "T" "fillup" [{ text := "Q", options := none }] "a@b.com"
               isFileUpload := false }]
          notifications := []
          navigated := none } Event.submit = false :=
  ⟨by decide,
    (reachable_one_request _
      ⟨[Event.inputChange InputName.title "T", Event.inputChange InputName.recipient_email "a@b.com",
          Event.numQuestionsChange "1", Event.questionChange 0 Field.text "Q", Event.submit],
        by decide⟩).2.2.1 rfl⟩

/-! ## C24: the notification timer -/

/-- C24 (defect in the code): `showNotification` never cancels a pending timer. A notification
`B` raised 3 seconds after a notification `A` is on display 1999 ms later and is cleared at
2000 ms, when the timer of `A` runs: it is dismissed by the older timer after 2 of its 5
seconds, and its own timer is still pending with 3000 ms to go. -/
theorem older_timer_clears_newer_notification :
    (showNotification (elapse (showNotification initialApp "danger" "A") 3000) "success"
        "B").notification = { type := some "success", message := "B" } ∧
    (elapse
        (showNotification (elapse (showNotification initialApp "danger" "A") 3000) "success" "B")
        1999).notification = { type := some "success", message := "B" } ∧
    elapse
        (showNotification (elapse (showNotification initialApp "danger" "A") 3000) "success" "B")
        2000 = { notification := noBanner, timers := [3000] } ∧
    (elapse
        (showNotification (elapse (showNotification initialApp "danger" "A") 3000) "success" "B")
        2000).notification.shown = false := by
  decide

/-- With no older timer pending, a notification is on display for 5000 ms and cleared then. -/
theorem lone_notification_lasts_five_seconds (a : AppState) (type message : String) (ms : Nat)
    (h : a.timers = []) :
    (elapse (showNotification a type message) ms).notification =
      if ms < 5000 then { type := some type, message := message } else noBanner := by
  unfold elapse showNotification
  simp only [h, List.nil_append, List.any_cons, List.any_nil, Bool.or_false, decide_eq_true_eq]
  by_cases hms : ms < 5000
  · rw [if_pos hms, if_neg (by omega)]
  · rw [if_neg hms, if_pos (by omega)]

/-! ## C25: toggling the preview -/

/-- C25: `togglePreview` writes only `previewMode`, which it negates: `formData`, `questions`,
the input mode, the attached file, `errors` and `loading` are unchanged, and toggling twice
gives back the starting state. -/
theorem togglePreview_spec (s : FormState) :
    togglePreview s = { s with previewMode := !s.previewMode } ∧
    (togglePreview s).formData = s.formData ∧
    (togglePreview s).questions = s.questions ∧
    (togglePreview s).useFileUpload = s.useFileUpload ∧
    (togglePreview s).questionsFile = s.questionsFile ∧
    (togglePreview s).errors = s.errors ∧
    (togglePreview s).loading = s.loading ∧
    togglePreview (togglePreview s) = s := by
  refine ⟨rfl, rfl, rfl, rfl, rfl, rfl, rfl, ?_⟩
  cases s
  simp [togglePreview]

/-! ## C26: the preview -/

theorem previewItems_length (options : List String) :
    ∀ start : Nat, (previewItems start options).length = options.length := by
  induction options with
  | nil => intro start; rfl
  | cons option rest ih =>
    intro start
    simp only [previewItems, List.length_cons, ih]

/-- The item at position `j` is the option itself, or its placeholder when it is empty. -/
theorem previewItems_getElem? (options : List String) :
    ∀ (start j : Nat) (opt : String), options[j]? = some opt →
      (previewItems start options)[j]? =
        some (if opt = "" then "Option " ++ toString (start + j + 1) else opt) := by
  induction options with
  | nil => intro start j opt h; simp at h
  | cons option rest ih =>
    intro start j opt h
    unfold previewItems
    cases j with
    | zero =>
      simp only [List.getElem?_cons_zero, Option.some.injEq] at h
      rw [List.getElem?_cons_zero, h]
      by_cases ho : opt = ""
      · rw [if_pos ho, (truthy_eq_false_iff opt).mpr ho]
        rfl
      · have ht : truthy opt = true := by
          cases hx : truthy opt
          · exact absurd ((truthy_eq_false_iff opt).mp hx) ho
          · rfl
        rw [if_neg ho, ht]
        rfl
    | succ j =>
      simp only [List.getElem?_cons_succ] at h
      rw [List.getElem?_cons_succ, ih (start + 1) j opt h,
        show start + 1 + j + 1 = start + (j + 1) + 1 by omega]

theorem previewCards_length (question_type : String) (qs : List Question) :
    ∀ start : Nat, (previewCards question_type start qs).length = qs.length := by
  induction qs with
  | nil => intro start; rfl
  | cons q rest ih =>
    intro start
    simp only [previewCards, List.length_cons, ih]

/-- The card at position `i` is the card of the question at position `i`. -/
theorem previewCards_getElem? (question_type : String) (qs : List Question) :
    ∀ (start i : Nat) (q : Question), qs[i]? = some q →
      (previewCards question_type start qs)[i]? = some (previewCard question_type (start + i) q) := by
  induction qs with
  | nil => intro start i q h; simp at h
  | cons q0 rest ih =>
    intro start i q h
    unfold previewCards
    cases i with
    | zero =>
      simp only [List.getElem?_cons_zero, Option.some.injEq] at h
      rw [List.getElem?_cons_zero, h]
      rfl
    | succ i =>
      simp only [List.getElem?_cons_succ] at h
      rw [List.getElem?_cons_succ, ih (start + 1) i q h,
        show start + 1 + i = start + (i + 1) by omega]

/-- C26 (counterexample): for a draft with a title and no question the preview is the line
`No questions added yet.`; neither the title nor its placeholder is rendered. -/
theorem preview_without_questions_omits_title :
    renderQuestionPreview
        { initialState with formData := { initialState.formData with title := "Test Survey" } } =
      Preview.noQuestions "No questions added yet." ∧
    renderQuestionPreview initialState = Preview.noQuestions "No questions added yet." := by
  decide

/-- C26 (amended): for a draft without questions the preview is the line
`No questions added yet.`. For a draft with at least one question it is the title, or
`Untitled Survey` when the title is empty, followed by one card per question, in order, with
the text of the question; under multiple choice the card lists every option in order, with
`Option {n}` (its 1-based position) in place of exactly the options that are the empty string,
and for any other type the card lists no option. The function returns the rendered tree only:
it has no access to the state setters. -/
theorem renderQuestionPreview_spec (s : FormState) :
    (s.questions = [] →
      renderQuestionPreview s = Preview.noQuestions "No questions added yet.") ∧
    (s.questions ≠ [] →
      ∃ cards,
        renderQuestionPreview s =
            Preview.survey (if s.formData.title = "" then "Untitled Survey" else s.formData.title)
              cards ∧
          cards.length = s.questions.length ∧
          ∀ i q, s.questions[i]? = some q →
            ∃ card, cards[i]? = some card ∧ card.text = q.text ∧
              card.subtitle = "Question " ++ toString (i + 1) ∧
              (s.formData.question_type = "multiple_choice" →
                ∀ options, q.options = some options →
                  ∃ items, card.items = some items ∧ items.length = options.length ∧
                    ∀ j opt, options[j]? = some opt →
                      items[j]? =
                        some (if opt = "" then "Option " ++ toString (j + 1) else opt)) ∧
              (s.formData.question_type ≠ "multiple_choice" → card.items = none)) := by
  constructor
  · intro h
    unfold renderQuestionPreview
    rw [h]
    rfl
  · intro h
    have hlen : ¬ s.questions.length = 0 := by
      intro h0
      exact h (List.length_eq_zero.mp h0)
    have htitle : (if truthy s.formData.title = true then s.formData.title else "Untitled Survey") =
        if s.formData.title = "" then "Untitled Survey" else s.formData.title := by
      by_cases ht : s.formData.title = ""
      · rw [if_pos ht, (truthy_eq_false_iff _).mpr ht]
        rfl
      · have : truthy s.formData.title = true := by
          cases hx : truthy s.formData.title
          · exact absurd ((truthy_eq_false_iff _).mp hx) ht
          · rfl
        rw [if_neg ht, this]
        rfl
    refine ⟨previewCards s.formData.question_type 0 s.questions, ?_, previewCards_length _ _ _, ?_⟩
    · unfold renderQuestionPreview
      rw [if_neg hlen, htitle]
    · intro i q hq
      refine ⟨previewCard s.formData.question_type i q, ?_, rfl, rfl, ?_, ?_⟩
      · have := previewCards_getElem? s.formData.question_type s.questions 0 i q hq
        rwa [Nat.zero_add] at this
      · intro ht options ho
        refine ⟨previewItems 0 options, ?_, previewItems_length _ _, ?_⟩
        · unfold previewCard
          simp only [ht, if_true, ho]
        · intro j opt hj
          have := previewItems_getElem? options 0 j opt hj
          rwa [Nat.zero_add] at this
      · intro ht
        unfold previewCard
        simp only [ht, if_false]

/-- C26 (witness): a form without title whose single question has an empty first option. -/
theorem renderQuestionPreview_spec_witness :
    renderQuestionPreview
        { filledTestForm with
          formData := { filledTestForm.formData with title := "" }
          questions := [{ text := "Favorite Color?", options := some ["", "Green"] }] } =
      Preview.survey "Untitled Survey"
        [{ subtitle := "Question 1", text := "Favorite Color?", items := some ["Option 1", "Green"] }] ∧
    renderQuestionPreview { filledTestForm with questions := [] } =
      Preview.noQuestions "No questions added yet." :=
  ⟨by decide, (renderQuestionPreview_spec { filledTestForm with questions := [] }).1 rfl⟩

/-! ## C27: what a valid form holds when it is submitted -/

theorem questionsFile_handleNumQuestionsChange (s : FormState) (value : String) :
    (handleNumQuestionsChange s value).state.questionsFile = s.questionsFile := by
  unfold handleNumQuestionsChange
  repeat' split
  all_goals rfl

theorem questionsFile_handleQuestionChange (s : FormState) (index : Nat) (field : Field)
    (value : String) :
    (handleQuestionChange s index field value).state.questionsFile = s.questionsFile := by
  unfold handleQuestionChange
  repeat' split
  all_goals rfl

theorem questionsFile_addOption (s : FormState) (i : Nat) :
    (addOption s i).state.questionsFile = s.questionsFile := by
  unfold addOption
  repeat' split
  all_goals rfl

theorem questionsFile_removeOption (s : FormState) (i j : Nat) :
    (removeOption s i j).state.questionsFile = s.questionsFile := by
  unfold removeOption
  repeat' split
  all_goals rfl

theorem questionsFile_handleSubmit (s : FormState) :
    (handleSubmit s).1.state.questionsFile = s.questionsFile := by
  rw [handleSubmit_frame]

/-- A reader other than the one that completes is still pending afterwards. -/
theorem mem_eraseIdx_of_ne (readers : List Reader) (k : Nat) (r r1 : Reader)
    (hk : readers[k]? = some r) (hmem : r1 ∈ readers) (hne : r1 ≠ r) :
    r1 ∈ readers.eraseIdx k := by
  rw [List.mem_eraseIdx_iff_getElem?]
  obtain ⟨i, hi⟩ := List.getElem?_of_mem hmem
  refine ⟨i, ?_, hi⟩
  intro hik
  rw [hik, hk] at hi
  injection hi with hi
  exact hne hi.symm

/-- Every event keeps the read of an attached file without a usable line outstanding, whether
or not the page offers the event. -/
theorem blankFilePending_applyEvent (w : World) (e : Event) (h : BlankFilePending w) :
    BlankFilePending (applyEvent w e) := by
  have keep : ∀ w1 : World, w1.form.questionsFile = w.form.questionsFile →
      w1.readers = w.readers → BlankFilePending w1 := by
    intro w1 h1 h2 f hf hblank
    rw [h2]
    rw [h1] at hf
    exact h f hf hblank
  have detached : ∀ w1 : World, w1.form.questionsFile = none → BlankFilePending w1 := by
    intro w1 h1 f hf _
    rw [h1] at hf
    cases hf
  cases e with
  | inputChange name value => exact keep _ rfl rfl
  | questionTypeChange value => exact detached _ rfl
  | numQuestionsChange value => exact keep _ (questionsFile_handleNumQuestionsChange _ _) rfl
  | questionChange index field value =>
    exact keep _ (questionsFile_handleQuestionChange _ _ _ _) rfl
  | addOption i => exact keep _ (questionsFile_addOption _ _) rfl
  | removeOption i j => exact keep _ (questionsFile_removeOption _ _ _) rfl
  | selectManual => exact detached _ rfl
  | selectFileUpload => exact keep _ rfl rfl
  | fileChange file =>
    cases file with
    | none => exact detached _ rfl
    | some f0 =>
      by_cases hn : endsWith f0.name ".txt" = true
      · intro f hf _
        have hfile : (applyEvent w (Event.fileChange (some f0))).form.questionsFile = some f0 := by
          show (handleFileChange w.form (some f0)).1.questionsFile = some f0
          unfold handleFileChange
          simp [hn]
        have hreaders : (applyEvent w (Event.fileChange (some f0))).readers =
            w.readers ++ [{ question_type := w.form.formData.question_type, result := f0.content }] := by
          show w.readers ++ (handleFileChange w.form (some f0)).2.toList = _
          unfold handleFileChange
          simp [hn]
        rw [hfile] at hf
        injection hf with hf
        rw [hreaders, ← hf]
        exact ⟨_, List.mem_append_right _ (List.mem_singleton_self _), rfl⟩
      · apply detached
        show (handleFileChange w.form (some f0)).1.questionsFile = none
        unfold handleFileChange
        simp [hn]
  | fileLoaded reader =>
    simp only [applyEvent]
    split
    · rename_i r hr
      by_cases h0 : (questionTexts r.result).length = 0
      · apply detached
        show (onload r w.form).questionsFile = none
        unfold onload
        rw [if_pos h0]
      · intro f hf hblank
        have hfile : (onload r w.form).questionsFile = w.form.questionsFile := by
          unfold onload
          rw [if_neg h0]
        have hf0 : w.form.questionsFile = some f := hfile ▸ hf
        obtain ⟨r1, hmem, hres⟩ := h f hf0 hblank
        refine ⟨r1, ?_, hres⟩
        apply mem_eraseIdx_of_ne _ _ r r1 hr hmem
        intro heq
        apply h0
        rw [← heq, hres, hblank]
        rfl
    · exact h
  | togglePreview => exact keep _ rfl rfl
  | submit => exact keep _ (questionsFile_handleSubmit _) rfl
  | createResolved request id => exact keep _ rfl rfl
  | createRejected request detail => exact keep _ rfl rfl
  | cancel => exact keep _ rfl rfl

theorem blankFilePending_run (events : List Event) :
    ∀ w0 w : World, BlankFilePending w0 → run w0 events = some w → BlankFilePending w := by
  induction events with
  | nil =>
    intro w0 w h hrun
    simp only [run, Option.some.injEq] at hrun
    rw [← hrun]
    exact h
  | cons e rest ih =>
    intro w0 w h hrun
    unfold run step at hrun
    by_cases he : enabled w0 e = true
    · simp only [he, if_true] at hrun
      exact ih _ w (blankFilePending_applyEvent w0 e h) hrun
    · simp only [he] at hrun
      cases hrun

/-- C27 (counterexample): four runs in which a form passes validation and a call is sent
although the claim fails. In the first the count `4294967296` is stored while the count handler
raises and leaves `questions` empty: the survey is sent with no question. In the second the
count `.5` does not parse as an integer, which `validateForm` does not test (the defect of C1),
and the Create Survey button of the preview sends the survey with no question. In the third a
file without a usable line is attached and sent while its read is still outstanding. In the
fourth two reads complete in the opposite order of their selection: the count is `1` and the
file sent has two lines. -/
theorem valid_form_submitted_without_questions :
    (run initialWorld
        [Event.inputChange InputName.title "T", Event.inputChange InputName.recipient_email "a@b.com",
          Event.numQuestionsChange "4294967296", Event.submit]).map (fun w => w.calls) =
      some [{ data := Payload.json "T" "fillup" [] "a@b.com", isFileUpload := false }] ∧
    (run initialWorld
        [Event.inputChange InputName.title "T", Event.inputChange InputName.recipient_email "a@b.com",
          Event.numQuestionsChange ".5", Event.togglePreview, Event.submit]).map
        (fun w => w.calls) =
      some [{ data := Payload.json "T" "fillup" [] "a@b.com", isFileUpload := false }] ∧
    (run initialWorld
        [Event.inputChange InputName.title "T", Event.inputChange InputName.recipient_email "a@b.com",
          Event.selectFileUpload, Event.fileChange (some { name := "a.txt", content := "Q1" }),
          Event.fileLoaded 0, Event.fileChange (some { name := "b.txt", content := " \n" }),
          Event.submit]).map (fun w => (w.form.formData.num_questions, w.calls)) =
      some ("1",
        [{ data := Payload.multipart "T" "a@b.com" { name := "b.txt", content := " \n" } "fillup" none
           isFileUpload := true }]) ∧
    (run initialWorld
        [Event.inputChange InputName.title "T", Event.inputChange InputName.recipient_email "a@b.com",
          Event.selectFileUpload, Event.fileChange (some { name := "a.txt", content := "Q1" }),
          Event.fileChange (some { name := "b.txt", content := "Q1\nQ2" }), Event.fileLoaded 1,
          Event.fileLoaded 0, Event.submit]).map
        (fun w => (w.form.formData.num_questions, w.calls)) =
      some ("1",
        [{ data :=
             Payload.multipart "T" "a@b.com" { name := "b.txt", content := "Q1\nQ2" } "fillup" none
           isFileUpload := true }]) := by
  decide

/-- C27 (amended): in every reachable state in which `validateForm` returns the empty mapping
and `num_questions` parses as an integer `n` not above `2 ^ 32 - 1`, that integer is at least 1
and `questions` has exactly `n` entries, so at least one. A submit then starts a call: in manual
mode it carries these questions; in file mode it carries the attached file, together with these
questions under multiple choice, and when no file read is outstanding the attached file has at
least one usable line. -/
theorem reachable_valid_form_has_questions (w : World) (hw : Reachable w)
    (hvalid : validationErrors w.form = Except.ok []) (n : Int)
    (hp : parseInt w.form.formData.num_questions = some n) (hn : n ≤ 4294967295) :
    1 ≤ n ∧ (w.form.questions.length : Int) = n ∧ w.form.questions ≠ [] ∧
    (handleSubmit w.form).2 = some (createCall w.form) ∧
    (w.form.useFileUpload = false →
      (createCall w.form).data =
        Payload.json w.form.formData.title w.form.formData.question_type w.form.questions
          w.form.formData.recipient_email) ∧
    (w.form.useFileUpload = true →
      ∃ file, w.form.questionsFile = some file ∧
        (createCall w.form).data =
          Payload.multipart w.form.formData.title w.form.formData.recipient_email file
            w.form.formData.question_type
            (if w.form.formData.question_type = "multiple_choice" then some w.form.questions
            else none) ∧
        (w.readers = [] → questionTexts file.content ≠ [])) := by
  obtain ⟨events, hrun⟩ := hw
  have h0 : CountInSync initialWorld.form := countInSync_of_cleared _ rfl
  have hsync : CountInSync w.form := countInSync_run events initialWorld w h0 hrun
  have hb0 : BlankFilePending initialWorld := by
    intro f hf _
    cases hf
  have hpending : BlankFilePending w := blankFilePending_run events initialWorld w hb0 hrun
  have hcount : getKey "num_questions" ([] : Errors) = getKey "num_questions" (validateFields w.form) :=
    validationErrors_field w.form [] "num_questions" hvalid (Or.inr (Or.inl rfl))
  rw [validateFields_num_questions] at hcount
  have hge : 1 ≤ n := by
    by_cases hc : (!truthy w.form.formData.num_questions ||
        parsesBelowOne w.form.formData.num_questions) = true
    · rw [if_pos hc] at hcount
      cases hcount
    · simp only [Bool.or_eq_true, not_or, Bool.not_eq_true] at hc
      have hb := hc.2
      unfold parsesBelowOne at hb
      rw [hp] at hb
      simp only [decide_eq_false_iff_not] at hb
      omega
  have hlen := hsync n hp hge hn
  have hmap : w.form.questions.map (fun q => ({ text := q.text, options := q.options } : Question)) =
      w.form.questions := by
    have : (fun q : Question => ({ text := q.text, options := q.options } : Question)) = id := by
      funext q
      rfl
    rw [this, List.map_id]
  refine ⟨hge, hlen, ?_, ?_, ?_, ?_⟩
  · intro hnil
    rw [hnil] at hlen
    simp only [List.length_nil, Nat.cast_zero] at hlen
    omega
  · rw [handleSubmit_of_errors w.form [] hvalid]
    rfl
  · intro hmode
    unfold createCall
    rw [hmode]
  · intro hmode
    obtain ⟨file, hfile⟩ := file_attached_of_valid w.form hvalid hmode
    refine ⟨file, hfile, ?_, ?_⟩
    · unfold createCall
      rw [hmode, hfile, hmap]
    · intro hnone hblank
      obtain ⟨r, hmem, _⟩ := hpending file hfile hblank
      rw [hnone] at hmem
      simp at hmem

/-- C27 (witness): the form after a file with one line has been imported. -/
theorem reachable_valid_form_has_questions_witness :
    Reachable
        (List.foldl applyEvent initialWorld
          [Event.inputChange InputName.title "T",
            Event.inputChange InputName.recipient_email "a@b.com", Event.selectFileUpload,
            Event.fileChange (some { name := "a.txt", content := "Q1" }), Event.fileLoaded 0]) ∧
    (List.foldl applyEvent initialWorld
        [Event.inputChange InputName.title "T",
          Event.inputChange InputName.recipient_email "a@b.com", Event.selectFileUpload,
          Event.fileChange (some { name := "a.txt", content := "Q1" }),
          Event.fileLoaded 0]).form.questions = [{ text := "Q1", options := none }] ∧
    (List.foldl applyEvent initialWorld
        [Event.inputChange InputName.title "T",
          Event.inputChange InputName.recipient_email "a@b.com", Event.selectFileUpload,
          Event.fileChange (some { name := "a.txt", content := "Q1" }),
          Event.fileLoaded 0]).form.questions ≠ [] :=
  ⟨⟨[Event.inputChange InputName.title "T", Event.inputChange InputName.recipient_email "a@b.com",
      Event.selectFileUpload, Event.fileChange (some { name := "a.txt", content := "Q1" }),
      Event.fileLoaded 0], by decide⟩,
    by decide,
    (reachable_valid_form_has_questions _
      ⟨[Event.inputChange InputName.title "T", Event.inputChange InputName.recipient_email "a@b.com",
          Event.selectFileUpload, Event.fileChange (some { name := "a.txt", content := "Q1" }),
          Event.fileLoaded 0], by decide⟩
      (by decide) 1 (by decide) (by decide)).2.2.1⟩

end SurveyFlow
